import Mathlib

set_option linter.unusedVariables false

/-! Shallow embedding of the spatial discovery pipeline of the hunter-flipper
repository: the sonar chart quadtree of src/sonar_chart.c, the raycaster of
src/raycaster.c, the terrain generator of src/terrain.c and the chunk manager
of src/chunk_manager.c.

Modelling conventions.  Machine integers are modelled as Int; no intermediate
C expression overflows a C int in the ranges these functions are used with, so
no masking is needed except for uint32 arithmetic, which is modelled with
explicit reduction modulo 2 to the 32.  C truncating integer division is
Int.tdiv.  The C pointer pools are modelled by counters of free slots: an
allocation succeeds exactly when a free slot exists, and freeing returns the
slot, which is the observable behaviour of the round-robin slot scan in the C
code.  The file-scoped RNG static of terrain.c is threaded explicitly as a
state value.  furi_get_tick is passed in as an explicit tick argument.
Recursive tree functions whose recursion is not structural carry a fuel
argument; the tree depth is capped at SONAR_QUADTREE_MAX_DEPTH, so any fuel at
least 16 is beyond the deepest possible recursion from the root and the fueled
functions agree with the C code there (proved where needed). -/

/-- Configuration constants from src/sonar_chart.h. -/
def SONAR_QUADTREE_MAX_DEPTH : Nat := 6

def SONAR_QUADTREE_MAX_POINTS : Nat := 8

def SONAR_FADE_STAGES : Nat := 4

def SONAR_FADE_DURATION_MS : Nat := 15000

def SONAR_MAX_POINTS : Nat := 512

/-- The SonarFadeState enum values from src/sonar_chart.h. -/
def SONAR_FADE_FULL : Nat := 0

def SONAR_FADE_BRIGHT : Nat := 1

def SONAR_FADE_DIM : Nat := 2

def SONAR_FADE_FAINT : Nat := 3

def SONAR_FADE_GONE : Nat := 4

/-- One discovered sample, struct SonarPoint of src/sonar_chart.h.  The
discovery_time field is a uint32 tick value. -/
structure SonarPoint where
  world_x : Int
  world_y : Int
  discovery_time : Nat
  fade_state : Nat
  is_terrain : Bool
deriving DecidableEq, Repr

/-- Inclusive axis-aligned rectangle, struct SonarBounds of src/sonar_chart.h. -/
structure SonarBounds where
  min_x : Int
  min_y : Int
  max_x : Int
  max_y : Int
deriving DecidableEq, Repr

/-- sonar_bounds_intersect of src/sonar_chart.c. -/
def sonar_bounds_intersect (a b : SonarBounds) : Bool :=
  !(decide (a.max_x < b.min_x) || decide (b.max_x < a.min_x) ||
    decide (a.max_y < b.min_y) || decide (b.max_y < a.min_y))

/-- sonar_bounds_contains_point of src/sonar_chart.c. -/
def sonar_bounds_contains_point (bounds : SonarBounds) (x y : Int) : Bool :=
  decide (bounds.min_x ≤ x) && decide (x ≤ bounds.max_x) &&
  decide (bounds.min_y ≤ y) && decide (y ≤ bounds.max_y)

/-- sonar_bounds_create of src/sonar_chart.c. -/
def sonar_bounds_create (min_x min_y max_x max_y : Int) : SonarBounds :=
  { min_x := min_x, min_y := min_y, max_x := max_x, max_y := max_y }

/-- struct SonarQuadNode of src/sonar_chart.h, with the is_leaf flag and the
four child pointers fused into the two constructors: a node is a leaf or has
exactly four children in the order NW, NE, SW, SE (the C code only clears
is_leaf after all four children have been allocated).  The points array and
the point_count field are fused into a list. -/
inductive SonarQuadNode : Type where
  | leaf (bounds : SonarBounds) (points : List SonarPoint) (depth : Nat)
  | internal (bounds : SonarBounds) (points : List SonarPoint) (depth : Nat)
      (c0 c1 c2 c3 : SonarQuadNode)
deriving DecidableEq, Repr

/-- The bounds field of a node. -/
def SonarQuadNode.bounds : SonarQuadNode → SonarBounds
  | .leaf b _ _ => b
  | .internal b _ _ _ _ _ _ => b

/-- The points list of a node (the points array up to point_count). -/
def SonarQuadNode.points : SonarQuadNode → List SonarPoint
  | .leaf _ pts _ => pts
  | .internal _ pts _ _ _ _ _ => pts

/-- The depth field of a node. -/
def SonarQuadNode.depth : SonarQuadNode → Nat
  | .leaf _ _ d => d
  | .internal _ _ d _ _ _ _ => d

/-- The is_leaf flag of a node. -/
def SonarQuadNode.is_leaf : SonarQuadNode → Bool
  | .leaf _ _ _ => true
  | .internal _ _ _ _ _ _ _ => false

/-- The bounds of the four children created by sonar_quad_subdivide of
src/sonar_chart.c, in the order NW, NE, SW, SE: the four
sonar_bounds_create calls of that function. -/
def sonar_quad_child_bounds (b : SonarBounds) :
    SonarBounds × SonarBounds × SonarBounds × SonarBounds :=
  let mid_x : Int := (b.min_x + b.max_x).tdiv 2
  let mid_y : Int := (b.min_y + b.max_y).tdiv 2
  (sonar_bounds_create b.min_x b.min_y mid_x mid_y,
   sonar_bounds_create mid_x b.min_y b.max_x mid_y,
   sonar_bounds_create b.min_x mid_y mid_x b.max_y,
   sonar_bounds_create mid_x mid_y b.max_x b.max_y)

/-- The point-redistribution loop of sonar_quad_subdivide of
src/sonar_chart.c, parameterized by the insert routine it calls: each point
goes to the first child whose bounds contain it (the insert return value is
ignored by the C code; a point contained in no child is dropped there after a
log line). -/
def sonar_quad_redistribute_go
    (ins : Nat → SonarQuadNode → SonarPoint → Nat × SonarQuadNode × Bool)
    (freeNodes : Nat) (pts : List SonarPoint) (c0 c1 c2 c3 : SonarQuadNode) :
    Nat × SonarQuadNode × SonarQuadNode × SonarQuadNode × SonarQuadNode :=
  match pts with
  | [] => (freeNodes, c0, c1, c2, c3)
  | p :: rest =>
    if sonar_bounds_contains_point c0.bounds p.world_x p.world_y then
      let r := ins freeNodes c0 p
      sonar_quad_redistribute_go ins r.1 rest r.2.1 c1 c2 c3
    else if sonar_bounds_contains_point c1.bounds p.world_x p.world_y then
      let r := ins freeNodes c1 p
      sonar_quad_redistribute_go ins r.1 rest c0 r.2.1 c2 c3
    else if sonar_bounds_contains_point c2.bounds p.world_x p.world_y then
      let r := ins freeNodes c2 p
      sonar_quad_redistribute_go ins r.1 rest c0 c1 r.2.1 c3
    else if sonar_bounds_contains_point c3.bounds p.world_x p.world_y then
      let r := ins freeNodes c3 p
      sonar_quad_redistribute_go ins r.1 rest c0 c1 c2 r.2.1
    else
      sonar_quad_redistribute_go ins freeNodes rest c0 c1 c2 c3

/-- The body of sonar_quad_subdivide of src/sonar_chart.c on a leaf,
parameterized by the insert routine used to redistribute the points.  State
threaded: the number of free slots of the node pool.  The C code allocates the
four children one at a time and frees the already-allocated ones if any
allocation fails, so the net effect is: four slots are consumed when at least
four are free, otherwise the pool and the node are unchanged. -/
def sonar_quad_subdivide_go
    (ins : Nat → SonarQuadNode → SonarPoint → Nat × SonarQuadNode × Bool)
    (freeNodes : Nat) (b : SonarBounds) (pts : List SonarPoint) (d : Nat) :
    Nat × SonarQuadNode :=
  if SONAR_QUADTREE_MAX_DEPTH ≤ d then (freeNodes, .leaf b pts d)
  else if freeNodes < 4 then (freeNodes, .leaf b pts d)
  else
    let bs := sonar_quad_child_bounds b
    let c0 : SonarQuadNode := .leaf bs.1 [] (d + 1)
    let c1 : SonarQuadNode := .leaf bs.2.1 [] (d + 1)
    let c2 : SonarQuadNode := .leaf bs.2.2.1 [] (d + 1)
    let c3 : SonarQuadNode := .leaf bs.2.2.2 [] (d + 1)
    let r := sonar_quad_redistribute_go ins (freeNodes - 4) pts c0 c1 c2 c3
    (r.1, .internal b [] d r.2.1 r.2.2.1 r.2.2.2.1 r.2.2.2.2)

/-- The child-insertion loop at the end of sonar_quad_insert of
src/sonar_chart.c, parameterized by the insert routine: try the four children
in order; if none accepts the point, force insert it into the node itself when
the node has spare capacity. -/
def sonar_quad_children_go
    (ins : Nat → SonarQuadNode → SonarPoint → Nat × SonarQuadNode × Bool)
    (freeNodes : Nat) (b : SonarBounds) (pts : List SonarPoint) (d : Nat)
    (c0 c1 c2 c3 : SonarQuadNode) (point : SonarPoint) :
    Nat × SonarQuadNode × Bool :=
  let r0 := ins freeNodes c0 point
  if r0.2.2 then (r0.1, .internal b pts d r0.2.1 c1 c2 c3, true)
  else
    let r1 := ins r0.1 c1 point
    if r1.2.2 then (r1.1, .internal b pts d r0.2.1 r1.2.1 c2 c3, true)
    else
      let r2 := ins r1.1 c2 point
      if r2.2.2 then (r2.1, .internal b pts d r0.2.1 r1.2.1 r2.2.1 c3, true)
      else
        let r3 := ins r2.1 c3 point
        if r3.2.2 then (r3.1, .internal b pts d r0.2.1 r1.2.1 r2.2.1 r3.2.1, true)
        else
          if pts.length < SONAR_QUADTREE_MAX_POINTS then
            (r3.1, .internal b (pts ++ [point]) d r0.2.1 r1.2.1 r2.2.1 r3.2.1, true)
          else
            (r3.1, .internal b pts d r0.2.1 r1.2.1 r2.2.1 r3.2.1, false)

/-- sonar_quad_insert of src/sonar_chart.c.  Returns the updated free-node
count, the updated node, and the C return value.  The recursion is structural
on the fuel so that it computes; the subdivision body and the child loop are
the helpers above, applied to this function at the next smaller fuel. -/
def sonar_quad_insert (fuel : Nat) (freeNodes : Nat) (node : SonarQuadNode)
    (point : SonarPoint) : Nat × SonarQuadNode × Bool :=
  match fuel with
  | 0 => (freeNodes, node, false)
  | f + 1 =>
    if !(sonar_bounds_contains_point node.bounds point.world_x point.world_y) then
      (freeNodes, node, false)
    else
      match node with
      | .leaf b pts d =>
        if pts.length < SONAR_QUADTREE_MAX_POINTS then
          (freeNodes, .leaf b (pts ++ [point]) d, true)
        else
          let s := sonar_quad_subdivide_go
            (fun nf n p => sonar_quad_insert f nf n p) freeNodes b pts d
          match s.2 with
          | .leaf b2 pts2 d2 =>
            -- subdivision failed; the C source then tries a guarded force
            -- insert, whose capacity guard is translated verbatim here
            if pts2.length < SONAR_QUADTREE_MAX_POINTS then
              (s.1, .leaf b2 (pts2 ++ [point]) d2, false)
            else
              (s.1, .leaf b2 pts2 d2, false)
          | .internal b2 pts2 d2 c0 c1 c2 c3 =>
            sonar_quad_children_go (fun nf n p => sonar_quad_insert f nf n p)
              s.1 b2 pts2 d2 c0 c1 c2 c3 point
      | .internal b pts d c0 c1 c2 c3 =>
        sonar_quad_children_go (fun nf n p => sonar_quad_insert f nf n p)
          freeNodes b pts d c0 c1 c2 c3 point

/-- sonar_quad_subdivide of src/sonar_chart.c as a standalone entry point: a
no-op on internal nodes, the subdivision body with the given insert fuel on
leaves. -/
def sonar_quad_subdivide (fuel : Nat) (freeNodes : Nat) (node : SonarQuadNode) :
    Nat × SonarQuadNode :=
  match node with
  | .internal b pts d c0 c1 c2 c3 => (freeNodes, .internal b pts d c0 c1 c2 c3)
  | .leaf b pts d =>
    sonar_quad_subdivide_go (fun nf n p => sonar_quad_insert fuel nf n p)
      freeNodes b pts d

/-- All points stored in a subtree, the node's own list first and then the
children in order, matching the traversal order of sonar_quad_query. -/
def sonar_stored : SonarQuadNode → List SonarPoint
  | .leaf _ pts _ => pts
  | .internal _ pts _ c0 c1 c2 c3 =>
      pts ++ (sonar_stored c0 ++ (sonar_stored c1 ++ (sonar_stored c2 ++ sonar_stored c3)))

/-- The coordinates of all stored points of a subtree. -/
def sonar_coords (node : SonarQuadNode) : List (Int × Int) :=
  (sonar_stored node).map fun p => (p.world_x, p.world_y)

/-- The point-collection loop shared by both branches of sonar_quad_query of
src/sonar_chart.c: the capacity check runs before the containment check for
every point, and a full buffer aborts the whole query with false. -/
def sonar_scan_points (pts : List SonarPoint) (bounds : SonarBounds)
    (acc : List SonarPoint) (max_points : Nat) : List SonarPoint × Bool :=
  match pts with
  | [] => (acc, true)
  | p :: rest =>
    if max_points ≤ acc.length then (acc, false)
    else if sonar_bounds_contains_point bounds p.world_x p.world_y then
      sonar_scan_points rest bounds (acc ++ [p]) max_points
    else
      sonar_scan_points rest bounds acc max_points

/-- sonar_quad_query of src/sonar_chart.c.  The out_points buffer and the
count are fused into the accumulator list; the returned Bool is the C return
value (false means the buffer filled up). -/
def sonar_quad_query (node : SonarQuadNode) (bounds : SonarBounds)
    (acc : List SonarPoint) (max_points : Nat) : List SonarPoint × Bool :=
  if !(sonar_bounds_intersect node.bounds bounds) then (acc, true)
  else
    match node with
    | .leaf _ pts _ => sonar_scan_points pts bounds acc max_points
    | .internal _ pts _ c0 c1 c2 c3 =>
      let r := sonar_scan_points pts bounds acc max_points
      if !r.2 then (r.1, false)
      else
        let q0 := sonar_quad_query c0 bounds r.1 max_points
        if !q0.2 then (q0.1, false)
        else
          let q1 := sonar_quad_query c1 bounds q0.1 max_points
          if !q1.2 then (q1.1, false)
          else
            let q2 := sonar_quad_query c2 bounds q1.1 max_points
            if !q2.2 then (q2.1, false)
            else
              sonar_quad_query c3 bounds q2.1 max_points

/-- Subtraction of uint32 values as in C: both operands reduced modulo 2 to
the 32, wrap-around difference. -/
def u32_sub (a b : Nat) : Nat :=
  (a % 4294967296 + (4294967296 - b % 4294967296)) % 4294967296

/-- sonar_chart_get_fade_state of src/sonar_chart.c, on the uint32 tick
values.  The SonarFadeState result is the stage number, capped at
SONAR_FADE_GONE. -/
def sonar_chart_get_fade_state (point : SonarPoint) (current_time : Nat) : Nat :=
  let age := u32_sub current_time point.discovery_time
  let stage := age / SONAR_FADE_DURATION_MS
  if SONAR_FADE_STAGES ≤ stage then SONAR_FADE_GONE else stage

/-- sonar_fade_state_opacity of src/sonar_chart.c. -/
def sonar_fade_state_opacity (state : Nat) : Nat :=
  if state = SONAR_FADE_FULL then 255
  else if state = SONAR_FADE_BRIGHT then 192
  else if state = SONAR_FADE_DIM then 128
  else if state = SONAR_FADE_FAINT then 64
  else 0

/-- sonar_quad_cleanup_faded of src/sonar_chart.c.  Returns the cleaned node
and the number of points freed back to the point pool.  Only leaf point lists
are compacted; an internal node recurses into its children without touching
its own point list, exactly as the C code does. -/
def sonar_quad_cleanup_faded (node : SonarQuadNode) (current_time : Nat) :
    SonarQuadNode × Nat :=
  match node with
  | .leaf b pts d =>
    let kept := pts.filterMap fun p =>
      let state := sonar_chart_get_fade_state p current_time
      if SONAR_FADE_GONE ≤ state then none
      else some { p with fade_state := state }
    (.leaf b kept d, pts.length - kept.length)
  | .internal b pts d c0 c1 c2 c3 =>
    let r0 := sonar_quad_cleanup_faded c0 current_time
    let r1 := sonar_quad_cleanup_faded c1 current_time
    let r2 := sonar_quad_cleanup_faded c2 current_time
    let r3 := sonar_quad_cleanup_faded c3 current_time
    (.internal b pts d r0.1 r1.1 r2.1 r3.1, r0.2 + r1.2 + r2.2 + r3.2)

/-- The chart state of struct SonarChart of src/sonar_chart.h: the root node,
the two pools as slot counters, and the fade throttle timestamp.  The
performance counters and the unused query cache are not modelled. -/
structure SonarChart where
  root : SonarQuadNode
  freeNodes : Nat
  pointActive : Nat
  pointPoolSize : Nat
  last_fade_update : Nat
deriving DecidableEq, Repr

/-- Fuel used at every entry into the fueled quadtree recursion; the recursion
depth from the root of a well-formed tree is below 16 (the depth cap is 6). -/
def SONAR_INSERT_FUEL : Nat := 16

/-- sonar_chart_alloc of src/sonar_chart.c: a 128-slot node pool of which the
root takes one slot, a 512-slot point pool, and the root leaf covering the
whole int16 coordinate range. -/
def sonar_chart_alloc : SonarChart :=
  { root := .leaf (sonar_bounds_create (-32768) (-32768) 32767 32767) [] 0
    freeNodes := 127
    pointActive := 0
    pointPoolSize := SONAR_MAX_POINTS
    last_fade_update := 0 }

/-- sonar_chart_query_area of src/sonar_chart.c: the returned list is the
out_points buffer contents, whose length is the returned count. -/
def sonar_chart_query_area (chart : SonarChart) (bounds : SonarBounds)
    (max_points : Nat) : List SonarPoint :=
  (sonar_quad_query chart.root bounds [] max_points).1

/-- sonar_chart_query_point of src/sonar_chart.c: query the degenerate
one-coordinate window with a buffer of 9, then select the stored point with
the smallest Manhattan distance, and answer it only when that distance is
at most 0 (an exact coordinate match). -/
def sonar_chart_query_point (chart : SonarChart) (world_x world_y : Int) :
    Option SonarPoint :=
  let nearby := (sonar_quad_query chart.root
      (sonar_bounds_create world_x world_y world_x world_y) [] 9).1
  let best := nearby.foldl
    (fun acc p =>
      let distance := (p.world_x - world_x).natAbs + (p.world_y - world_y).natAbs
      match acc with
      | none => if distance < 32767 then some (p, distance) else none
      | some (q, dq) => if distance < dq then some (p, distance) else some (q, dq))
    none
  match best with
  | some (p, dp) => if dp ≤ 0 then some p else none
  | none => none

/-- The in-place update sonar_chart_add_point performs on an existing point
found by sonar_chart_query_point: refresh the timestamp, reset the fade state,
and never downgrade terrain to water. -/
def sonar_point_refresh (is_terrain : Bool) (tick : Nat) (p : SonarPoint) :
    SonarPoint :=
  { p with discovery_time := tick % 4294967296
           fade_state := SONAR_FADE_FULL
           is_terrain := p.is_terrain || is_terrain }

/-- Apply an update function to every stored point at exactly the given
coordinate.  This models the C mutation through the pointer returned by
sonar_chart_query_point: that pointer is the stored point at exactly this
coordinate, which is unique in every reachable chart. -/
def sonar_tree_update_point (node : SonarQuadNode) (x y : Int)
    (f : SonarPoint → SonarPoint) : SonarQuadNode :=
  match node with
  | .leaf b pts d =>
    .leaf b (pts.map fun p => if p.world_x = x ∧ p.world_y = y then f p else p) d
  | .internal b pts d c0 c1 c2 c3 =>
    .internal b (pts.map fun p => if p.world_x = x ∧ p.world_y = y then f p else p) d
      (sonar_tree_update_point c0 x y f) (sonar_tree_update_point c1 x y f)
      (sonar_tree_update_point c2 x y f) (sonar_tree_update_point c3 x y f)

/-- sonar_chart_add_point of src/sonar_chart.c.  The tick argument models the
furi_get_tick() call.  The point-pool allocation succeeds exactly when
active_count is below the pool size; on insert failure the fresh point is
freed again, so pointActive is only incremented on success. -/
def sonar_chart_add_point (chart : SonarChart) (world_x world_y : Int)
    (is_terrain : Bool) (tick : Nat) : SonarChart × Bool :=
  match sonar_chart_query_point chart world_x world_y with
  | some _ =>
    ({ chart with
        root := sonar_tree_update_point chart.root world_x world_y
          (sonar_point_refresh is_terrain tick) }, true)
  | none =>
    if chart.pointPoolSize ≤ chart.pointActive then (chart, false)
    else
      let point : SonarPoint :=
        { world_x := world_x
          world_y := world_y
          discovery_time := tick % 4294967296
          fade_state := SONAR_FADE_FULL
          is_terrain := is_terrain }
      let r := sonar_quad_insert SONAR_INSERT_FUEL chart.freeNodes chart.root point
      if r.2.2 then
        ({ chart with
            root := r.2.1
            freeNodes := r.1
            pointActive := chart.pointActive + 1 }, true)
      else
        ({ chart with root := r.2.1, freeNodes := r.1 }, false)

/-- sonar_chart_update_fade of src/sonar_chart.c: throttled to at most one
cleanup per 1000 ticks, in uint32 arithmetic. -/
def sonar_chart_update_fade (chart : SonarChart) (current_time : Nat) : SonarChart :=
  if u32_sub current_time chart.last_fade_update < 1000 then chart
  else
    let r := sonar_quad_cleanup_faded chart.root current_time
    { chart with
        root := r.1
        pointActive := chart.pointActive - r.2
        last_fade_update := current_time % 4294967296 }

/-- A sequence of sonar_chart_add_point calls; the Bool records whether every
call in the sequence returned true. -/
def sonar_chart_add_points (chart : SonarChart)
    (inputs : List (Int × Int × Bool × Nat)) : SonarChart × Bool :=
  inputs.foldl
    (fun acc q =>
      let r := sonar_chart_add_point acc.1 q.1 q.2.1 q.2.2.1 q.2.2.2
      (r.1, acc.2 && r.2))
    (chart, true)

/-- Sanity of a bounds rectangle: non-empty in both axes. -/
def sonar_bounds_sane (b : SonarBounds) : Bool :=
  decide (b.min_x ≤ b.max_x) && decide (b.min_y ≤ b.max_y)

/-- A node's own point list is valid: every point inside the node's bounds and
the list within the points array capacity. -/
def sonar_points_ok (b : SonarBounds) (pts : List SonarPoint) : Bool :=
  pts.all (fun p => sonar_bounds_contains_point b p.world_x p.world_y) &&
  decide (pts.length ≤ SONAR_QUADTREE_MAX_POINTS)

/-- Structural well-formedness of a quadtree as built by the C code: sane
bounds, own points inside the bounds and within capacity, depth within the
cap, and for an internal node the four children carrying exactly the
subdivision bounds and depth, recursively well-formed. -/
def sonar_wf : SonarQuadNode → Bool
  | .leaf b pts d =>
    sonar_bounds_sane b && sonar_points_ok b pts &&
    decide (d ≤ SONAR_QUADTREE_MAX_DEPTH)
  | .internal b pts d c0 c1 c2 c3 =>
    let bs := sonar_quad_child_bounds b
    sonar_bounds_sane b && sonar_points_ok b pts &&
    decide (d < SONAR_QUADTREE_MAX_DEPTH) &&
    decide (c0.bounds = bs.1) && decide (c1.bounds = bs.2.1) &&
    decide (c2.bounds = bs.2.2.1) && decide (c3.bounds = bs.2.2.2) &&
    decide (c0.depth = d + 1) && decide (c1.depth = d + 1) &&
    decide (c2.depth = d + 1) && decide (c3.depth = d + 1) &&
    sonar_wf c0 && sonar_wf c1 && sonar_wf c2 && sonar_wf c3

/-- Invariant of every reachable chart: a well-formed tree with pairwise
distinct stored coordinates. -/
def sonar_inv (chart : SonarChart) : Bool :=
  sonar_wf chart.root && decide (sonar_coords chart.root).Nodup

/-- The points stored in leaf nodes of a subtree, in traversal order. -/
def sonar_leaf_stored : SonarQuadNode → List SonarPoint
  | .leaf _ pts _ => pts
  | .internal _ _ _ c0 c1 c2 c3 =>
      sonar_leaf_stored c0 ++ (sonar_leaf_stored c1 ++
        (sonar_leaf_stored c2 ++ sonar_leaf_stored c3))

/-- The points force-retained on internal nodes of a subtree. -/
def sonar_internal_stored : SonarQuadNode → List SonarPoint
  | .leaf _ _ _ => []
  | .internal _ pts _ c0 c1 c2 c3 =>
      pts ++ (sonar_internal_stored c0 ++ (sonar_internal_stored c1 ++
        (sonar_internal_stored c2 ++ sonar_internal_stored c3)))

/-- The number of the four subdivision children of a node whose bounds contain
the given coordinate (0 for a leaf). -/
def sonar_children_containing (node : SonarQuadNode) (x y : Int) : Nat :=
  match node with
  | .leaf _ _ _ => 0
  | .internal _ _ _ c0 c1 c2 c3 =>
    (if sonar_bounds_contains_point c0.bounds x y then 1 else 0) +
    (if sonar_bounds_contains_point c1.bounds x y then 1 else 0) +
    (if sonar_bounds_contains_point c2.bounds x y then 1 else 0) +
    (if sonar_bounds_contains_point c3.bounds x y then 1 else 0)

/-- Fixed-point direction of src/raycaster.h: a unit vector scaled by 1000. -/
structure RayDirection where
  dx : Int
  dy : Int
  angle_id : Nat
deriving DecidableEq, Repr

/-- struct RayResult of src/raycaster.h. -/
structure RayResult where
  hit_x : Int
  hit_y : Int
  distance : Nat
  hit_terrain : Bool
  ray_complete : Bool
deriving DecidableEq, Repr

/-- A ray pattern of src/raycaster.h: the directions array up to
direction_count, plus the max radius. -/
structure RayPattern where
  directions : List RayDirection
  max_radius : Nat
deriving DecidableEq, Repr

/-- The bresham_* scratch fields of struct Raycaster, threaded explicitly. -/
structure BreshamState where
  x : Int
  y : Int
  dx : Int
  dy : Int
  err : Int
  step_x : Int
  step_y : Int
  steep : Bool
deriving DecidableEq, Repr

/-- raycaster_bresham_init of src/raycaster.c (both branches of the final if
assign the same expression to bresham_err). -/
def raycaster_bresham_init (x0 y0 x1 y1 : Int) : BreshamState :=
  let dx : Int := |x1 - x0|
  let dy : Int := |y1 - y0|
  { x := x0
    y := y0
    dx := dx
    dy := dy
    err := dx - dy
    step_x := if x0 < x1 then 1 else -1
    step_y := if y0 < y1 then 1 else -1
    steep := decide (dx < dy) }

/-- raycaster_bresham_step of src/raycaster.c: writes the current position to
the out parameters, then advances; returns false when the line is complete.
The second condition reads the dx field after the first branch may have
decremented it, exactly as the C code does. -/
def raycaster_bresham_step (st : BreshamState) : BreshamState × Int × Int × Bool :=
  let out_x := st.x
  let out_y := st.y
  if st.dx = 0 ∧ st.dy = 0 then (st, out_x, out_y, false)
  else
    let e2 := 2 * st.err
    let st1 :=
      if -st.dy < e2 then
        { st with err := st.err - st.dy, x := st.x + st.step_x, dx := st.dx - 1 }
      else st
    let st2 :=
      if e2 < st1.dx then
        { st1 with err := st1.err + st1.dx, y := st1.y + st1.step_y, dy := st1.dy - 1 }
      else st1
    (st2, out_x, out_y, true)

/-- The while loop of raycaster_cast_ray: the loop condition calls
raycaster_bresham_step first (which always writes the current position) and
then tests step_count against max_distance; remaining is
max_distance - step_count.  Returns the last written position, the final step
count, and whether the collision predicate fired. -/
def raycaster_cast_loop (collision : Int → Int → Bool) (st : BreshamState)
    (step_count : Nat) (remaining : Nat) : Int × Int × Nat × Bool :=
  let s := raycaster_bresham_step st
  if !s.2.2.2 then (s.2.1, s.2.2.1, step_count, false)
  else
    match remaining with
    | 0 => (s.2.1, s.2.2.1, step_count, false)
    | r + 1 =>
      let cx := s.2.1
      let cy := s.2.2.1
      let sc := step_count + 1
      if collision cx cy then (cx, cy, sc, true)
      else if decide (10000 < |cx|) || decide (10000 < |cy|) then (cx, cy, sc, false)
      else raycaster_cast_loop collision s.1 sc r

/-- raycaster_cast_ray of src/raycaster.c.  The collision callback with its
context pointer is modelled as a Lean predicate.  Returns the C return value
and the filled RayResult. -/
def raycaster_cast_ray (start_x start_y : Int) (direction : RayDirection)
    (max_distance : Nat) (collision : Int → Int → Bool) : Bool × RayResult :=
  let end_x0 := start_x + (direction.dx * (max_distance : Int)).tdiv 1000
  let end_y0 := start_y + (direction.dy * (max_distance : Int)).tdiv 1000
  let end_x := if end_x0 < -32768 then -32768 else if 32767 < end_x0 then 32767 else end_x0
  let end_y := if end_y0 < -32768 then -32768 else if 32767 < end_y0 then 32767 else end_y0
  let st := raycaster_bresham_init start_x start_y end_x end_y
  let r := raycaster_cast_loop collision st 0 max_distance
  if r.2.2.2 then
    (true, { hit_x := r.1, hit_y := r.2.1, distance := r.2.2.1,
             hit_terrain := true, ray_complete := true })
  else
    (false, { hit_x := r.1, hit_y := r.2.1, distance := r.2.2.1,
              hit_terrain := false, ray_complete := true })

/-- The loop of raycaster_cast_pattern of src/raycaster.c.  The adaptive
quality check of the C loop body sits after the cast and consists of a single
continue statement at the end of the body, so it skips nothing; it is
therefore a no-op and does not appear as a computation here. -/
def raycaster_cast_pattern_loop (quality : Nat) (max_radius : Nat)
    (start_x start_y : Int) (collision : Int → Int → Bool)
    (dirs : List RayDirection) (i : Nat) (results : List RayResult)
    (hits : Nat) : List RayResult × Nat :=
  match dirs with
  | [] => (results, hits)
  | dir :: rest =>
    let r := raycaster_cast_ray start_x start_y dir max_radius collision
    let hits1 := if r.1 then hits + 1 else hits
    raycaster_cast_pattern_loop quality max_radius start_x start_y collision
      rest (i + 1) (results ++ [r.2]) hits1

/-- raycaster_cast_pattern of src/raycaster.c: one result slot per pattern
direction, in order; returns the slots and the hit count. -/
def raycaster_cast_pattern (quality : Nat) (pattern : RayPattern)
    (start_x start_y : Int) (collision : Int → Int → Bool) :
    List RayResult × Nat :=
  raycaster_cast_pattern_loop quality pattern.max_radius start_x start_y
    collision pattern.directions 0 [] 0

/-- Terrain configuration from src/terrain.h and src/terrain.c. -/
def CHUNK_TERRAIN_SIZE : Nat := 33

def TERRAIN_MAX_DELTA : Int := 80

def TERRAIN_ROUGHNESS_DECAY : Int := 2

/-- struct TerrainManager of src/terrain.h.  The height and collision maps are
row-major arrays of width times height entries; the C code leaves them
uninitialized after malloc, but the generation pass writes every cell, so they
are modelled zero-initialized. -/
structure TerrainManager where
  width : Int
  height : Int
  height_map : Array Nat
  collision_map : Array Bool
  elevation_threshold : Nat
  seed : Nat
deriving DecidableEq, Repr

/-- terrain_srand of src/terrain.c: overwrite the file-scoped RNG state. -/
def terrain_srand (seed : Nat) : Nat := seed % 4294967296

/-- terrain_rand of src/terrain.c: a linear congruential step on the
file-scoped uint32 state, returning bits 16 to 23. -/
def terrain_rand (state : Nat) : Nat × Nat :=
  let state1 := (state * 1103515245 + 12345) % 4294967296
  (state1, (state1 / 65536) % 256)

/-- terrain_rand_range of src/terrain.c, in C int arithmetic with truncating
division. -/
def terrain_rand_range (state : Nat) (range : Int) : Nat × Int :=
  let r := terrain_rand state
  (r.1, ((r.2 : Int) * range).tdiv 255 - range.tdiv 2)

/-- terrain_get_height of src/terrain.c: zero outside the map. -/
def terrain_get_height (t : TerrainManager) (x y : Int) : Nat :=
  if x < 0 ∨ t.width ≤ x ∨ y < 0 ∨ t.height ≤ y then 0
  else t.height_map.getD (y * t.width + x).toNat 0

/-- terrain_set_height of src/terrain.c: no-op outside the map. -/
def terrain_set_height (t : TerrainManager) (x y : Int) (h : Nat) : TerrainManager :=
  if x < 0 ∨ t.width ≤ x ∨ y < 0 ∨ t.height ≤ y then t
  else { t with height_map := t.height_map.setD (y * t.width + x).toNat h }

/-- terrain_init_corners of src/terrain.c: reseed the RNG from the tile seed
(discarding the incoming state, which models the terrain_srand call on the
file-scoped static), then set the four corners to 70 plus a random value
below 110. -/
def terrain_init_corners (state : Nat) (t : TerrainManager) : TerrainManager × Nat :=
  let step := t.width - 1
  let s0 := terrain_srand t.seed
  let r1 := terrain_rand s0
  let t1 := terrain_set_height t 0 0 (70 + r1.2 % 110)
  let r2 := terrain_rand r1.1
  let t2 := terrain_set_height t1 step 0 (70 + r2.2 % 110)
  let r3 := terrain_rand r2.1
  let t3 := terrain_set_height t2 0 step (70 + r3.2 % 110)
  let r4 := terrain_rand r3.1
  let t4 := terrain_set_height t3 step step (70 + r4.2 % 110)
  (t4, r4.1)

/-- terrain_diamond_step of src/terrain.c. -/
def terrain_diamond_step (state : Nat) (t : TerrainManager) (x y : Int)
    (size : Int) (roughness : Int) : TerrainManager × Nat :=
  let half := size.tdiv 2
  let tl : Int := terrain_get_height t (x - half) (y - half)
  let tr : Int := terrain_get_height t (x + half) (y - half)
  let bl : Int := terrain_get_height t (x - half) (y + half)
  let br : Int := terrain_get_height t (x + half) (y + half)
  let avg := (tl + tr + bl + br).tdiv 4
  let r := terrain_rand_range state roughness
  let new_height0 := avg + r.2
  let new_height := if new_height0 < 0 then 0 else if 255 < new_height0 then 255 else new_height0
  (terrain_set_height t x y new_height.toNat, r.1)

/-- terrain_square_step of src/terrain.c. -/
def terrain_square_step (state : Nat) (t : TerrainManager) (x y : Int)
    (size : Int) (roughness : Int) : TerrainManager × Nat :=
  let half := size.tdiv 2
  let acc1 : Int × Int :=
    if 0 ≤ x - half then ((terrain_get_height t (x - half) y : Int), 1) else (0, 0)
  let acc2 : Int × Int :=
    if x + half < t.width then (acc1.1 + (terrain_get_height t (x + half) y : Int), acc1.2 + 1)
    else acc1
  let acc3 : Int × Int :=
    if 0 ≤ y - half then (acc2.1 + (terrain_get_height t x (y - half) : Int), acc2.2 + 1)
    else acc2
  let acc4 : Int × Int :=
    if y + half < t.height then (acc3.1 + (terrain_get_height t x (y + half) : Int), acc3.2 + 1)
    else acc3
  if 0 < acc4.2 then
    let avg := acc4.1.tdiv acc4.2
    let r := terrain_rand_range state roughness
    let new_height0 := avg + r.2
    let new_height := if new_height0 < 0 then 0 else if 255 < new_height0 then 255 else new_height0
    (terrain_set_height t x y new_height.toNat, r.1)
  else (t, state)

/-- The ascending index list of a C for loop: start, start + step, ... while
below bound (all values are within 0 to 32 here, so 40 iterations cover it). -/
def terrain_loop_indices (start step bound : Int) : List Int :=
  ((List.range 40).map fun i => start + (i : Int) * step).filter fun v => v < bound

/-- One diamond-plus-square pass of terrain_generate_diamond_square for a
given size and roughness. -/
def terrain_ds_pass (state : Nat) (t : TerrainManager) (size : Int)
    (roughness : Int) : TerrainManager × Nat :=
  let half := size.tdiv 2
  let a :=
    (terrain_loop_indices half (size - 1) t.height).foldl
      (fun acc y =>
        (terrain_loop_indices half (size - 1) t.width).foldl
          (fun acc2 x => terrain_diamond_step acc2.2 acc2.1 x y size roughness)
          acc)
      (t, state)
  (terrain_loop_indices 0 half a.1.height).foldl
    (fun acc y =>
      let x0 : Int := if (y.tdiv half) % 2 = 0 then half else 0
      (terrain_loop_indices x0 (size - 1) a.1.width).foldl
        (fun acc2 x => terrain_square_step acc2.2 acc2.1 x y size roughness)
        acc)
    a

/-- The while loop of terrain_generate_diamond_square: halve the size and the
roughness until the size drops below 3.  The fuel (40) exceeds the number of
passes for any starting size up to 2 to the 40. -/
def terrain_ds_loop (fuel : Nat) (state : Nat) (t : TerrainManager)
    (size : Int) (roughness : Int) : TerrainManager × Nat :=
  match fuel with
  | 0 => (t, state)
  | f + 1 =>
    if 3 ≤ size then
      let half := size.tdiv 2
      let a := terrain_ds_pass state t size roughness
      terrain_ds_loop f a.2 a.1 (half + 1) (roughness.tdiv TERRAIN_ROUGHNESS_DECAY)
    else (t, state)

/-- terrain_generate_diamond_square of src/terrain.c. -/
def terrain_generate_diamond_square (state : Nat) (t : TerrainManager) :
    TerrainManager × Nat :=
  let a := terrain_init_corners state t
  terrain_ds_loop 40 a.2 a.1 t.width TERRAIN_MAX_DELTA

/-- terrain_apply_elevation_threshold of src/terrain.c: threshold every height
cell, then despeckle by clearing land cells with no 8-connected land
neighbour (reading the pre-despeckle copy throughout, as the C code reads its
temp_map). -/
def terrain_apply_elevation_threshold (t : TerrainManager) : TerrainManager :=
  let w := t.width.toNat
  let h := t.height.toNat
  let cm0 : Array Bool := (Array.range (w * h)).map fun idx =>
    decide (t.elevation_threshold < t.height_map.getD idx 0)
  let cm : Array Bool := (Array.range (w * h)).map fun idx =>
    let x : Int := (idx % w : Nat)
    let y : Int := (idx / w : Nat)
    if cm0.getD idx false then
      let neighbour :=
        ([-1, 0, 1] : List Int).any fun dy =>
          ([-1, 0, 1] : List Int).any fun dx =>
            if dx = 0 ∧ dy = 0 then false
            else
              let nx := x + dx
              let ny := y + dy
              if 0 ≤ nx ∧ nx < t.width ∧ 0 ≤ ny ∧ ny < t.height then
                cm0.getD (ny * t.width + nx).toNat false
              else false
      if neighbour then true else false
    else false
  { t with collision_map := cm }

/-- terrain_manager_alloc of src/terrain.c: build the blank single-chunk tile,
generate the height field by diamond-square, then threshold and despeckle.
The threaded state argument is the file-scoped RNG static. -/
def terrain_manager_alloc (state : Nat) (seed : Nat) (elevation : Nat) :
    TerrainManager × Nat :=
  let t0 : TerrainManager :=
    { width := (CHUNK_TERRAIN_SIZE : Int)
      height := (CHUNK_TERRAIN_SIZE : Int)
      height_map := Array.mkArray (CHUNK_TERRAIN_SIZE * CHUNK_TERRAIN_SIZE) 0
      collision_map := Array.mkArray (CHUNK_TERRAIN_SIZE * CHUNK_TERRAIN_SIZE) false
      elevation_threshold := elevation
      seed := seed % 4294967296 }
  let g := terrain_generate_diamond_square state t0
  (terrain_apply_elevation_threshold g.1, g.2)

/-- terrain_check_collision of src/terrain.c. -/
def terrain_check_collision (t : TerrainManager) (x y : Int) : Bool :=
  if x < 0 ∨ t.width ≤ x ∨ y < 0 ∨ t.height ≤ y then false
  else t.collision_map.getD (y * t.width + x).toNat false

/-- Chunk configuration from src/chunk_manager.h. -/
def CHUNK_SIZE : Int := 33

def MAX_ACTIVE_CHUNKS : Nat := 4

/-- The chunk pool size chosen by chunk_manager_alloc:
CHUNK_CACHE_SIZE + MAX_ACTIVE_CHUNKS + 4 = 8. -/
def CHUNK_POOL_SIZE : Nat := 8

/-- struct ChunkCoord of src/chunk_manager.h. -/
structure ChunkCoord where
  chunk_x : Int
  chunk_y : Int
deriving DecidableEq, Repr

/-- struct TerrainChunk of src/chunk_manager.h (the access-time and dirty
bookkeeping fields are not modelled; nothing modelled here reads them). -/
structure TerrainChunk where
  coord : ChunkCoord
  terrain : Option TerrainManager
  is_loaded : Bool
  generation_seed : Nat
deriving DecidableEq, Repr

/-- world_to_chunk_coord of src/chunk_manager.c: floorf of the float division
by CHUNK_SIZE.  World positions are modelled as integers, on which the float
computation is exact (floor division by 33). -/
def world_to_chunk_coord (world_x world_y : Int) : ChunkCoord :=
  { chunk_x := world_x.fdiv CHUNK_SIZE, chunk_y := world_y.fdiv CHUNK_SIZE }

/-- chunk_coord_equals of src/chunk_manager.c. -/
def chunk_coord_equals (a b : ChunkCoord) : Bool :=
  decide (a.chunk_x = b.chunk_x) && decide (a.chunk_y = b.chunk_y)

/-- chunk_coord_hash of src/chunk_manager.c: the two int products cast to
uint32 and xored (int overflow modelled as wrap-around, which is what the
target produces). -/
def chunk_coord_hash (coord : ChunkCoord) : Nat :=
  (((coord.chunk_x * 73856093).emod 4294967296).toNat) ^^^
  (((coord.chunk_y * 19349663).emod 4294967296).toNat)

/-- struct ChunkManager of src/chunk_manager.h: the 2x2 active window as a
list of four option slots indexed dy * 2 + dx, the centre tile coordinate,
the chunk pool as a free-slot counter, the tracked player position, and the
file-scoped terrain RNG state threaded through tile generation. -/
structure ChunkManager where
  active_chunks : List (Option TerrainChunk)
  center_chunk : ChunkCoord
  poolFree : Nat
  player_world_x : Int
  player_world_y : Int
  rng : Nat
deriving DecidableEq, Repr

/-- chunk_manager_alloc of src/chunk_manager.c: empty window, centre tile of
world position 0,0, a full pool; the RNG static starts at its C initializer. -/
def chunk_manager_alloc : ChunkManager :=
  { active_chunks := [none, none, none, none]
    center_chunk := world_to_chunk_coord 0 0
    poolFree := CHUNK_POOL_SIZE
    player_world_x := 0
    player_world_y := 0
    rng := 12345 }

/-- chunk_manager_get_active_index of src/chunk_manager.c. -/
def chunk_manager_get_active_index (m : ChunkManager) (coord : ChunkCoord) : Int :=
  let relative_x := coord.chunk_x - m.center_chunk.chunk_x
  let relative_y := coord.chunk_y - m.center_chunk.chunk_y
  if relative_x < 0 ∨ 2 ≤ relative_x ∨ relative_y < 0 ∨ 2 ≤ relative_y then -1
  else relative_y * 2 + relative_x

/-- chunk_manager_load_chunk of src/chunk_manager.c: allocate a pool slot (or
fail), seed terrain generation from the tile-coordinate hash with the fixed
elevation threshold 90, and mark the chunk loaded. -/
def chunk_manager_load_chunk (poolFree : Nat) (rng : Nat) (coord : ChunkCoord) :
    Option TerrainChunk × Nat × Nat :=
  if poolFree = 0 then (none, poolFree, rng)
  else
    let seed := chunk_coord_hash coord
    let g := terrain_manager_alloc rng seed 90
    (some { coord := coord
            terrain := some g.1
            is_loaded := true
            generation_seed := seed }, poolFree - 1, g.2)

/-- The reuse scan of chunk_manager_update: find the first old slot holding a
chunk with the wanted coordinate, take it out (marking the slot reused). -/
def chunk_take_matching (old : List (Option TerrainChunk)) (coord : ChunkCoord) :
    Option TerrainChunk × List (Option TerrainChunk) :=
  match old with
  | [] => (none, [])
  | none :: rest =>
    let r := chunk_take_matching rest coord
    (r.1, none :: r.2)
  | some c :: rest =>
    if chunk_coord_equals c.coord coord then (some c, none :: rest)
    else
      let r := chunk_take_matching rest coord
      (r.1, some c :: r.2)

/-- One slot of the window rebuild of chunk_manager_update: reuse the matching
old chunk when there is one, otherwise load a fresh one.  Threads the
remaining old slots, the pool counter and the RNG state. -/
def chunk_rebuild_slot (coord : ChunkCoord)
    (acc : List (Option TerrainChunk) × Nat × Nat) :
    Option TerrainChunk × (List (Option TerrainChunk) × Nat × Nat) :=
  let taken := chunk_take_matching acc.1 coord
  match taken.1 with
  | some c => (some c, (taken.2, acc.2.1, acc.2.2))
  | none =>
    let l := chunk_manager_load_chunk acc.2.1 acc.2.2 coord
    (l.1, (taken.2, l.2.1, l.2.2))

/-- chunk_manager_update of src/chunk_manager.c: always record the player
position; when the centre tile changed, rebuild the 2x2 window in index order,
reusing overlapping tiles, then unload the old tiles that were not reused. -/
def chunk_manager_update (m : ChunkManager) (player_x player_y : Int) : ChunkManager :=
  let m1 := { m with player_world_x := player_x, player_world_y := player_y }
  let new_center := world_to_chunk_coord player_x player_y
  if chunk_coord_equals new_center m1.center_chunk then m1
  else
    let s0 : List (Option TerrainChunk) × Nat × Nat := (m1.active_chunks, m1.poolFree, m1.rng)
    let e0 := chunk_rebuild_slot { chunk_x := new_center.chunk_x, chunk_y := new_center.chunk_y } s0
    let e1 := chunk_rebuild_slot { chunk_x := new_center.chunk_x + 1, chunk_y := new_center.chunk_y } e0.2
    let e2 := chunk_rebuild_slot { chunk_x := new_center.chunk_x, chunk_y := new_center.chunk_y + 1 } e1.2
    let e3 := chunk_rebuild_slot { chunk_x := new_center.chunk_x + 1, chunk_y := new_center.chunk_y + 1 } e2.2
    let leftovers := (e3.2.1.filterMap id).length
    { m1 with
        center_chunk := new_center
        active_chunks := [e0.1, e1.1, e2.1, e3.1]
        poolFree := e3.2.2.1 + leftovers
        rng := e3.2.2.2 }

/-- chunk_manager_get_chunk_at of src/chunk_manager.c. -/
def chunk_manager_get_chunk_at (m : ChunkManager) (world_x world_y : Int) :
    Option TerrainChunk :=
  let coord := world_to_chunk_coord world_x world_y
  let index := chunk_manager_get_active_index m coord
  if 0 ≤ index ∧ index < (MAX_ACTIVE_CHUNKS : Int) then
    m.active_chunks.getD index.toNat none
  else none

/-- chunk_manager_check_collision of src/chunk_manager.c: no active chunk (or
a chunk without terrain) means no collision; otherwise read the collision mask
at tile-local coordinates. -/
def chunk_manager_check_collision (m : ChunkManager) (world_x world_y : Int) : Bool :=
  match chunk_manager_get_chunk_at m world_x world_y with
  | none => false
  | some chunk =>
    match chunk.terrain with
    | none => false
    | some terrain =>
      let coord := world_to_chunk_coord world_x world_y
      let local_x := world_x - coord.chunk_x * CHUNK_SIZE
      let local_y := world_y - coord.chunk_y * CHUNK_SIZE
      terrain_check_collision terrain local_x local_y

/-- A sequence of chunk_manager_update calls. -/
def chunk_manager_update_seq (m : ChunkManager) (ps : List (Int × Int)) : ChunkManager :=
  ps.foldl (fun acc p => chunk_manager_update acc p.1 p.2) m

/-! Concrete fixtures used by counterexamples and witnesses. -/

/-- Nine distinct coordinates inside one depth-6 cell of the root: the ninth
insertion cascades subdivisions down to the depth cap and is force-retained on
an internal node. -/
def sonar_demo_inputs : List (Int × Int × Bool × Nat) :=
  [(1, 1, true, 0), (2, 1, true, 0), (3, 1, true, 0), (4, 1, true, 0),
   (5, 1, true, 0), (6, 1, true, 0), (7, 1, true, 0), (8, 1, true, 0),
   (9, 1, true, 0)]

/-- The chart after inserting sonar_demo_inputs into a fresh chart. -/
def sonar_demo_chart : SonarChart :=
  (sonar_chart_add_points sonar_chart_alloc sonar_demo_inputs).1

/-- A small insertion batch at two distinct coordinates. -/
def sonar_small_inputs : List (Int × Int × Bool × Nat) :=
  [(1, 2, true, 5), (3, 4, false, 6)]

/-- A full leaf at the depth cap: subdivision cannot proceed there. -/
def sonar_full_leaf : SonarQuadNode :=
  .leaf (sonar_bounds_create 0 0 1023 1023)
    [⟨0, 0, 0, 0, true⟩, ⟨1, 0, 0, 0, true⟩, ⟨2, 0, 0, 0, true⟩,
     ⟨3, 0, 0, 0, true⟩, ⟨4, 0, 0, 0, true⟩, ⟨5, 0, 0, 0, true⟩,
     ⟨6, 0, 0, 0, true⟩, ⟨7, 0, 0, 0, true⟩] 6

/-- A ninth point inside the bounds of sonar_full_leaf. -/
def sonar_ninth_point : SonarPoint := ⟨8, 0, 0, 0, true⟩

/-- An empty leaf over the three-by-three square with corners 0,0 and 2,2. -/
def sonar_square_leaf : SonarQuadNode :=
  .leaf (sonar_bounds_create 0 0 2 2) [] 0

/-- A chart holding one terrain point at 5,5. -/
def sonar_terrain_chart : SonarChart :=
  (sonar_chart_add_point sonar_chart_alloc 5 5 true 100).1

/-- A chart holding one water point at 6,6. -/
def sonar_water_chart : SonarChart :=
  (sonar_chart_add_point sonar_chart_alloc 6 6 false 100).1

/-- The collision predicate of the cast_ray scenario in the spec: true exactly
on the block with x in 65 to 67 and y in 32 to 34 (the test_collision
function of src/debug_raycast.c). -/
def raycaster_demo_collision (x y : Int) : Bool :=
  decide (65 ≤ x) && decide (x ≤ 67) && decide (32 ≤ y) && decide (y ≤ 34)

/-- A two-ray pattern pointing right with max radius 4. -/
def raycaster_demo_pattern : RayPattern :=
  { directions := [{ dx := 1000, dy := 0, angle_id := 0 },
                   { dx := 1000, dy := 0, angle_id := 0 }]
    max_radius := 4 }

/-- The chunk manager after one update at world position 64,32. -/
def chunk_demo_manager : ChunkManager :=
  chunk_manager_update chunk_manager_alloc 64 32

/-- Two world positions inside tile 0,0. -/
def chunk_demo_positions : List (Int × Int) := [(5, 7), (32, 0)]

/-! Helper lemmas. -/

/-- The truncating midpoint of an ordered pair stays between the ends. -/
theorem sonar_tdiv2_between {a b : Int} (h : a ≤ b) :
    a ≤ (a + b).tdiv 2 ∧ (a + b).tdiv 2 ≤ b := by
  rcases le_or_lt 0 (a + b) with h0 | h0
  · rw [Int.tdiv_eq_ediv h0 (by norm_num)]
    constructor <;> omega
  · have h2 : (a + b).tdiv 2 = -((-(a + b)).tdiv 2) := by
      rw [← Int.neg_tdiv, neg_neg]
    rw [h2, Int.tdiv_eq_ediv (by omega) (by norm_num)]
    constructor <;> omega

@[simp] theorem SonarQuadNode.bounds_leaf (b : SonarBounds) (pts : List SonarPoint)
    (d : Nat) : (SonarQuadNode.leaf b pts d).bounds = b := rfl

@[simp] theorem SonarQuadNode.bounds_internal (b : SonarBounds)
    (pts : List SonarPoint) (d : Nat) (c0 c1 c2 c3 : SonarQuadNode) :
    (SonarQuadNode.internal b pts d c0 c1 c2 c3).bounds = b := rfl

@[simp] theorem SonarQuadNode.depth_leaf (b : SonarBounds) (pts : List SonarPoint)
    (d : Nat) : (SonarQuadNode.leaf b pts d).depth = d := rfl

@[simp] theorem SonarQuadNode.depth_internal (b : SonarBounds)
    (pts : List SonarPoint) (d : Nat) (c0 c1 c2 c3 : SonarQuadNode) :
    (SonarQuadNode.internal b pts d c0 c1 c2 c3).depth = d := rfl

@[simp] theorem SonarQuadNode.points_leaf (b : SonarBounds) (pts : List SonarPoint)
    (d : Nat) : (SonarQuadNode.leaf b pts d).points = pts := rfl

@[simp] theorem SonarQuadNode.points_internal (b : SonarBounds)
    (pts : List SonarPoint) (d : Nat) (c0 c1 c2 c3 : SonarQuadNode) :
    (SonarQuadNode.internal b pts d c0 c1 c2 c3).points = pts := rfl

@[simp] theorem sonar_stored_leaf (b : SonarBounds) (pts : List SonarPoint)
    (d : Nat) : sonar_stored (.leaf b pts d) = pts := rfl

@[simp] theorem sonar_stored_internal (b : SonarBounds) (pts : List SonarPoint)
    (d : Nat) (c0 c1 c2 c3 : SonarQuadNode) :
    sonar_stored (.internal b pts d c0 c1 c2 c3) =
      pts ++ (sonar_stored c0 ++ (sonar_stored c1 ++
        (sonar_stored c2 ++ sonar_stored c3))) := rfl

/-- Unfolding of the containment test into inequalities. -/
theorem sonar_contains_iff {b : SonarBounds} {x y : Int} :
    sonar_bounds_contains_point b x y = true ↔
      b.min_x ≤ x ∧ x ≤ b.max_x ∧ b.min_y ≤ y ∧ y ≤ b.max_y := by
  simp [sonar_bounds_contains_point, and_assoc]

/-- Unfolding of the intersection test into inequalities. -/
theorem sonar_intersect_iff {a b : SonarBounds} :
    sonar_bounds_intersect a b = true ↔
      b.min_x ≤ a.max_x ∧ a.min_x ≤ b.max_x ∧ b.min_y ≤ a.max_y ∧ a.min_y ≤ b.max_y := by
  simp [sonar_bounds_intersect, not_or, not_lt, and_assoc]

/-- Two rectangles both containing a coordinate intersect. -/
theorem sonar_intersect_of_contains {a b : SonarBounds} {x y : Int}
    (ha : sonar_bounds_contains_point a x y = true)
    (hb : sonar_bounds_contains_point b x y = true) :
    sonar_bounds_intersect a b = true := by
  rw [sonar_contains_iff] at ha hb
  rw [sonar_intersect_iff]
  omega

/-- A coordinate in the parent bounds lies in at least one of the four
subdivision child bounds. -/
theorem sonar_child_cover {b : SonarBounds} {x y : Int}
    (h : sonar_bounds_contains_point b x y = true) :
    sonar_bounds_contains_point (sonar_quad_child_bounds b).1 x y = true ∨
    sonar_bounds_contains_point (sonar_quad_child_bounds b).2.1 x y = true ∨
    sonar_bounds_contains_point (sonar_quad_child_bounds b).2.2.1 x y = true ∨
    sonar_bounds_contains_point (sonar_quad_child_bounds b).2.2.2 x y = true := by
  rw [sonar_contains_iff] at h
  simp only [sonar_quad_child_bounds, sonar_bounds_create, sonar_contains_iff]
  rcases le_total x ((b.min_x + b.max_x).tdiv 2) with h1 | h1 <;>
    rcases le_total y ((b.min_y + b.max_y).tdiv 2) with h2 | h2 <;> tauto

/-- Each subdivision child bounds is contained in the parent bounds. -/
theorem sonar_child_subset {b : SonarBounds} {x y : Int}
    (hs : sonar_bounds_sane b = true)
    (h : sonar_bounds_contains_point (sonar_quad_child_bounds b).1 x y = true ∨
      sonar_bounds_contains_point (sonar_quad_child_bounds b).2.1 x y = true ∨
      sonar_bounds_contains_point (sonar_quad_child_bounds b).2.2.1 x y = true ∨
      sonar_bounds_contains_point (sonar_quad_child_bounds b).2.2.2 x y = true) :
    sonar_bounds_contains_point b x y = true := by
  simp only [sonar_bounds_sane, Bool.and_eq_true, decide_eq_true_eq] at hs
  have hx := sonar_tdiv2_between hs.1
  have hy := sonar_tdiv2_between hs.2
  simp only [sonar_quad_child_bounds, sonar_bounds_create, sonar_contains_iff] at h ⊢
  omega

/-- The subdivision child bounds of a sane rectangle are sane. -/
theorem sonar_child_sane {b : SonarBounds} (hs : sonar_bounds_sane b = true) :
    sonar_bounds_sane (sonar_quad_child_bounds b).1 = true ∧
    sonar_bounds_sane (sonar_quad_child_bounds b).2.1 = true ∧
    sonar_bounds_sane (sonar_quad_child_bounds b).2.2.1 = true ∧
    sonar_bounds_sane (sonar_quad_child_bounds b).2.2.2 = true := by
  simp only [sonar_bounds_sane, Bool.and_eq_true, decide_eq_true_eq] at hs ⊢
  have hx := sonar_tdiv2_between hs.1
  have hy := sonar_tdiv2_between hs.2
  simp only [sonar_quad_child_bounds, sonar_bounds_create]
  omega

/-- Unfolding of sonar_points_ok. -/
theorem sonar_points_ok_iff {b : SonarBounds} {pts : List SonarPoint} :
    sonar_points_ok b pts = true ↔
      (∀ p ∈ pts, sonar_bounds_contains_point b p.world_x p.world_y = true) ∧
      pts.length ≤ SONAR_QUADTREE_MAX_POINTS := by
  simp [sonar_points_ok, List.all_eq_true]

/-- Unfolding of sonar_wf on a leaf. -/
theorem sonar_wf_leaf_iff {b : SonarBounds} {pts : List SonarPoint} {d : Nat} :
    sonar_wf (.leaf b pts d) = true ↔
      sonar_bounds_sane b = true ∧ sonar_points_ok b pts = true ∧
      d ≤ SONAR_QUADTREE_MAX_DEPTH := by
  simp [sonar_wf, and_assoc]

/-- Unfolding of sonar_wf on an internal node. -/
theorem sonar_wf_internal_iff {b : SonarBounds} {pts : List SonarPoint} {d : Nat}
    {c0 c1 c2 c3 : SonarQuadNode} :
    sonar_wf (.internal b pts d c0 c1 c2 c3) = true ↔
      sonar_bounds_sane b = true ∧ sonar_points_ok b pts = true ∧
      d < SONAR_QUADTREE_MAX_DEPTH ∧
      c0.bounds = (sonar_quad_child_bounds b).1 ∧
      c1.bounds = (sonar_quad_child_bounds b).2.1 ∧
      c2.bounds = (sonar_quad_child_bounds b).2.2.1 ∧
      c3.bounds = (sonar_quad_child_bounds b).2.2.2 ∧
      c0.depth = d + 1 ∧ c1.depth = d + 1 ∧ c2.depth = d + 1 ∧ c3.depth = d + 1 ∧
      sonar_wf c0 = true ∧ sonar_wf c1 = true ∧ sonar_wf c2 = true ∧
      sonar_wf c3 = true := by
  simp [sonar_wf, and_assoc]

/-- In a well-formed tree every stored point lies inside the bounds of the
node it is reached from. -/
theorem sonar_stored_in_bounds {node : SonarQuadNode}
    (hwf : sonar_wf node = true) :
    ∀ p ∈ sonar_stored node,
      sonar_bounds_contains_point node.bounds p.world_x p.world_y = true := by
  induction node with
  | leaf b pts d =>
    rw [sonar_wf_leaf_iff] at hwf
    intro p hp
    exact ((sonar_points_ok_iff).1 hwf.2.1).1 p hp
  | internal b pts d c0 c1 c2 c3 ih0 ih1 ih2 ih3 =>
    rw [sonar_wf_internal_iff] at hwf
    obtain ⟨hsane, hok, hd, hb0, hb1, hb2, hb3, _, _, _, _, hw0, hw1, hw2, hw3⟩ := hwf
    intro p hp
    simp only [sonar_stored_internal, List.mem_append] at hp
    rcases hp with hp | hp | hp | hp | hp
    · exact ((sonar_points_ok_iff).1 hok).1 p hp
    · exact sonar_child_subset hsane (Or.inl (hb0 ▸ ih0 hw0 p hp))
    · exact sonar_child_subset hsane (Or.inr (Or.inl (hb1 ▸ ih1 hw1 p hp)))
    · exact sonar_child_subset hsane (Or.inr (Or.inr (Or.inl (hb2 ▸ ih2 hw2 p hp))))
    · exact sonar_child_subset hsane (Or.inr (Or.inr (Or.inr (hb3 ▸ ih3 hw3 p hp))))


@[simp] theorem sonar_quad_insert_zero (freeNodes : Nat) (node : SonarQuadNode)
    (point : SonarPoint) :
    sonar_quad_insert 0 freeNodes node point = (freeNodes, node, false) := rfl

/-- One unfolding of sonar_quad_insert on a leaf. -/
theorem sonar_quad_insert_succ_leaf (f freeNodes : Nat) (b : SonarBounds)
    (pts : List SonarPoint) (d : Nat) (point : SonarPoint) :
    sonar_quad_insert (f + 1) freeNodes (.leaf b pts d) point =
      if !(sonar_bounds_contains_point b point.world_x point.world_y) then
        (freeNodes, .leaf b pts d, false)
      else if pts.length < SONAR_QUADTREE_MAX_POINTS then
        (freeNodes, .leaf b (pts ++ [point]) d, true)
      else
        let s := sonar_quad_subdivide_go
          (fun nf n p => sonar_quad_insert f nf n p) freeNodes b pts d
        match s.2 with
        | .leaf b2 pts2 d2 =>
          if pts2.length < SONAR_QUADTREE_MAX_POINTS then
            (s.1, .leaf b2 (pts2 ++ [point]) d2, false)
          else
            (s.1, .leaf b2 pts2 d2, false)
        | .internal b2 pts2 d2 c0 c1 c2 c3 =>
          sonar_quad_children_go (fun nf n p => sonar_quad_insert f nf n p)
            s.1 b2 pts2 d2 c0 c1 c2 c3 point := by
  rw [sonar_quad_insert]
  rfl

/-- One unfolding of sonar_quad_insert on an internal node. -/
theorem sonar_quad_insert_succ_internal (f freeNodes : Nat) (b : SonarBounds)
    (pts : List SonarPoint) (d : Nat) (c0 c1 c2 c3 : SonarQuadNode)
    (point : SonarPoint) :
    sonar_quad_insert (f + 1) freeNodes (.internal b pts d c0 c1 c2 c3) point =
      if !(sonar_bounds_contains_point b point.world_x point.world_y) then
        (freeNodes, .internal b pts d c0 c1 c2 c3, false)
      else
        sonar_quad_children_go (fun nf n p => sonar_quad_insert f nf n p)
          freeNodes b pts d c0 c1 c2 c3 point := by
  rw [sonar_quad_insert]
  rfl

/-- When a guard stops the subdivision the node and the pool are unchanged. -/
theorem sonar_quad_subdivide_go_guard
    (ins : Nat → SonarQuadNode → SonarPoint → Nat × SonarQuadNode × Bool)
    {freeNodes : Nat} {b : SonarBounds} {pts : List SonarPoint} {d : Nat}
    (h : SONAR_QUADTREE_MAX_DEPTH ≤ d ∨ freeNodes < 4) :
    sonar_quad_subdivide_go ins freeNodes b pts d = (freeNodes, .leaf b pts d) := by
  unfold sonar_quad_subdivide_go
  rcases h with h | h
  · simp [h]
  · rcases Nat.lt_or_ge d SONAR_QUADTREE_MAX_DEPTH with h6 | h6
    · simp [h, Nat.not_le.2 h6]
    · simp [h6]

/-- When both guards pass the subdivision produces the internal node built
from the redistribution result. -/
theorem sonar_quad_subdivide_go_success
    (ins : Nat → SonarQuadNode → SonarPoint → Nat × SonarQuadNode × Bool)
    {freeNodes : Nat} {b : SonarBounds} {pts : List SonarPoint} {d : Nat}
    (h6 : d < SONAR_QUADTREE_MAX_DEPTH) (hf : 4 ≤ freeNodes) :
    sonar_quad_subdivide_go ins freeNodes b pts d =
      (let bs := sonar_quad_child_bounds b
       let r := sonar_quad_redistribute_go ins (freeNodes - 4) pts
         (.leaf bs.1 [] (d + 1)) (.leaf bs.2.1 [] (d + 1))
         (.leaf bs.2.2.1 [] (d + 1)) (.leaf bs.2.2.2 [] (d + 1))
       (r.1, .internal b [] d r.2.1 r.2.2.1 r.2.2.2.1 r.2.2.2.2)) := by
  unfold sonar_quad_subdivide_go
  simp [Nat.not_le.2 h6, Nat.not_lt.2 hf]

/-- A failing child loop implies the node was at capacity. -/
theorem sonar_quad_children_go_full_of_false
    {ins : Nat → SonarQuadNode → SonarPoint → Nat × SonarQuadNode × Bool}
    {freeNodes : Nat} {b : SonarBounds} {pts : List SonarPoint} {d : Nat}
    {c0 c1 c2 c3 : SonarQuadNode} {point : SonarPoint}
    (h : (sonar_quad_children_go ins freeNodes b pts d c0 c1 c2 c3 point).2.2 = false) :
    SONAR_QUADTREE_MAX_POINTS ≤ pts.length := by
  unfold sonar_quad_children_go at h
  rcases h0 : (ins freeNodes c0 point).2.2 with _ | _
  · simp only [h0] at h
    rcases h1 : (ins (ins freeNodes c0 point).1 c1 point).2.2 with _ | _
    · simp only [h1] at h
      rcases h2 : (ins (ins (ins freeNodes c0 point).1 c1 point).1 c2 point).2.2 with _ | _
      · simp only [h2] at h
        rcases h3 : (ins (ins (ins (ins freeNodes c0 point).1 c1 point).1 c2 point).1 c3 point).2.2 with _ | _
        · simp only [h3] at h
          by_contra hlt
          simp [Nat.lt_of_not_le hlt] at h
        · simp [h3] at h
      · simp [h2] at h
    · simp [h1] at h
  · simp [h0] at h

/-- The child loop always succeeds on a node with an empty own point list. -/
theorem sonar_quad_children_go_empty_true
    (ins : Nat → SonarQuadNode → SonarPoint → Nat × SonarQuadNode × Bool)
    (freeNodes : Nat) (b : SonarBounds) (d : Nat) (c0 c1 c2 c3 : SonarQuadNode)
    (point : SonarPoint) :
    (sonar_quad_children_go ins freeNodes b [] d c0 c1 c2 c3 point).2.2 = true := by
  rcases hr : (sonar_quad_children_go ins freeNodes b [] d c0 c1 c2 c3 point).2.2 with _ | _
  · have := sonar_quad_children_go_full_of_false hr
    simp [SONAR_QUADTREE_MAX_POINTS] at this
  · rfl

/-- If the child loop reports failure, the node and the pool are unchanged,
provided the insert routine it calls has that property. -/
theorem sonar_quad_children_go_false
    {ins : Nat → SonarQuadNode → SonarPoint → Nat × SonarQuadNode × Bool}
    (hins : ∀ free n p, (ins free n p).2.2 = false → ins free n p = (free, n, false))
    {freeNodes : Nat} {b : SonarBounds} {pts : List SonarPoint} {d : Nat}
    {c0 c1 c2 c3 : SonarQuadNode} {point : SonarPoint}
    (h : (sonar_quad_children_go ins freeNodes b pts d c0 c1 c2 c3 point).2.2 = false) :
    sonar_quad_children_go ins freeNodes b pts d c0 c1 c2 c3 point =
      (freeNodes, .internal b pts d c0 c1 c2 c3, false) := by
  have hfull := sonar_quad_children_go_full_of_false h
  unfold sonar_quad_children_go at h ⊢
  rcases h0 : (ins freeNodes c0 point).2.2 with _ | _
  · have e0 := hins _ _ _ h0
    rw [e0] at h ⊢
    simp only [Bool.false_eq_true, if_false] at h ⊢
    rcases h1 : (ins freeNodes c1 point).2.2 with _ | _
    · have e1 := hins _ _ _ h1
      rw [e1] at h ⊢
      simp only [Bool.false_eq_true, if_false] at h ⊢
      rcases h2 : (ins freeNodes c2 point).2.2 with _ | _
      · have e2 := hins _ _ _ h2
        rw [e2] at h ⊢
        simp only [Bool.false_eq_true, if_false] at h ⊢
        rcases h3 : (ins freeNodes c3 point).2.2 with _ | _
        · have e3 := hins _ _ _ h3
          rw [e3] at h ⊢
          simp only [Bool.false_eq_true, if_false] at h ⊢
          simp [Nat.not_lt.2 hfull]
        · simp [h3] at h
      · simp [h2] at h
    · simp [h1] at h
  · simp [h0] at h

/-- A failing sonar_quad_insert changes nothing. -/
theorem sonar_quad_insert_false (fuel : Nat) :
    ∀ (freeNodes : Nat) (node : SonarQuadNode) (point : SonarPoint),
      (sonar_quad_insert fuel freeNodes node point).2.2 = false →
      sonar_quad_insert fuel freeNodes node point = (freeNodes, node, false) := by
  induction fuel with
  | zero => intro freeNodes node point _; rfl
  | succ f ih =>
    intro freeNodes node point hfalse
    cases node with
    | leaf b pts d =>
      rw [sonar_quad_insert_succ_leaf] at hfalse ⊢
      rcases hc : sonar_bounds_contains_point b point.world_x point.world_y with _ | _
      · simp [hc]
      · simp only [hc, Bool.not_true, Bool.false_eq_true, if_false] at hfalse ⊢
        rcases hl : decide (pts.length < SONAR_QUADTREE_MAX_POINTS) with _ | _
        · simp only [of_decide_eq_false hl, if_false] at hfalse ⊢
          by_cases hguard : SONAR_QUADTREE_MAX_DEPTH ≤ d ∨ freeNodes < 4
          · rw [sonar_quad_subdivide_go_guard _ hguard] at hfalse ⊢
            simp only [of_decide_eq_false hl, if_false] at hfalse ⊢
          · push_neg at hguard
            rw [sonar_quad_subdivide_go_success _ hguard.1 hguard.2] at hfalse
            exfalso
            simp only [] at hfalse
            rw [sonar_quad_children_go_empty_true] at hfalse
            exact Bool.true_eq_false.mp hfalse
        · simp [of_decide_eq_true hl] at hfalse
    | internal b pts d c0 c1 c2 c3 =>
      rw [sonar_quad_insert_succ_internal] at hfalse ⊢
      rcases hc : sonar_bounds_contains_point b point.world_x point.world_y with _ | _
      · simp [hc]
      · simp only [hc, Bool.not_true, Bool.false_eq_true, if_false] at hfalse ⊢
        exact sonar_quad_children_go_false (fun free n p => ih free n p) hfalse

/-- A well-formed node sits within the depth cap. -/
theorem sonar_wf_depth_le {node : SonarQuadNode} (hwf : sonar_wf node = true) :
    node.depth ≤ SONAR_QUADTREE_MAX_DEPTH := by
  cases node with
  | leaf b pts d => exact (sonar_wf_leaf_iff.1 hwf).2.2
  | internal b pts d c0 c1 c2 c3 =>
    exact Nat.le_of_lt (sonar_wf_internal_iff.1 hwf).2.2.1

/-- Inserting into a leaf with spare capacity appends the point. -/
theorem sonar_quad_insert_leaf_append {f : Nat} (hf : 1 ≤ f)
    {freeNodes : Nat} {b : SonarBounds} {pts : List SonarPoint} {d : Nat}
    {point : SonarPoint}
    (hc : sonar_bounds_contains_point b point.world_x point.world_y = true)
    (hl : pts.length < SONAR_QUADTREE_MAX_POINTS) :
    sonar_quad_insert f freeNodes (.leaf b pts d) point =
      (freeNodes, .leaf b (pts ++ [point]) d, true) := by
  cases f with
  | zero => omega
  | succ f => rw [sonar_quad_insert_succ_leaf]; simp [hc, hl]

/-- Redistribution spec: with an insert routine that appends to non-full
leaves, redistributing a batch of points inside the parent bounds into the
four fresh quadrant leaves preserves the pool, keeps each child's points in
its own quadrant, and preserves the point multiset. -/
theorem sonar_quad_redistribute_go_spec
    {ins : Nat → SonarQuadNode → SonarPoint → Nat × SonarQuadNode × Bool}
    (hins : ∀ free b2 pts2 d2 p,
      sonar_bounds_contains_point b2 p.world_x p.world_y = true →
      pts2.length < SONAR_QUADTREE_MAX_POINTS →
      ins free (.leaf b2 pts2 d2) p = (free, .leaf b2 (pts2 ++ [p]) d2, true))
    (b : SonarBounds) (d : Nat) :
    ∀ (pts l0 l1 l2 l3 : List SonarPoint) (free : Nat),
      (∀ p ∈ pts, sonar_bounds_contains_point b p.world_x p.world_y = true) →
      (∀ p ∈ l0, sonar_bounds_contains_point (sonar_quad_child_bounds b).1
        p.world_x p.world_y = true) →
      (∀ p ∈ l1, sonar_bounds_contains_point (sonar_quad_child_bounds b).2.1
        p.world_x p.world_y = true) →
      (∀ p ∈ l2, sonar_bounds_contains_point (sonar_quad_child_bounds b).2.2.1
        p.world_x p.world_y = true) →
      (∀ p ∈ l3, sonar_bounds_contains_point (sonar_quad_child_bounds b).2.2.2
        p.world_x p.world_y = true) →
      l0.length + l1.length + l2.length + l3.length + pts.length ≤
        SONAR_QUADTREE_MAX_POINTS →
      ∃ m0 m1 m2 m3 : List SonarPoint,
        sonar_quad_redistribute_go ins free pts
          (.leaf (sonar_quad_child_bounds b).1 l0 (d + 1))
          (.leaf (sonar_quad_child_bounds b).2.1 l1 (d + 1))
          (.leaf (sonar_quad_child_bounds b).2.2.1 l2 (d + 1))
          (.leaf (sonar_quad_child_bounds b).2.2.2 l3 (d + 1)) =
          (free, .leaf (sonar_quad_child_bounds b).1 m0 (d + 1),
            .leaf (sonar_quad_child_bounds b).2.1 m1 (d + 1),
            .leaf (sonar_quad_child_bounds b).2.2.1 m2 (d + 1),
            .leaf (sonar_quad_child_bounds b).2.2.2 m3 (d + 1)) ∧
        (∀ p ∈ m0, sonar_bounds_contains_point (sonar_quad_child_bounds b).1
          p.world_x p.world_y = true) ∧
        (∀ p ∈ m1, sonar_bounds_contains_point (sonar_quad_child_bounds b).2.1
          p.world_x p.world_y = true) ∧
        (∀ p ∈ m2, sonar_bounds_contains_point (sonar_quad_child_bounds b).2.2.1
          p.world_x p.world_y = true) ∧
        (∀ p ∈ m3, sonar_bounds_contains_point (sonar_quad_child_bounds b).2.2.2
          p.world_x p.world_y = true) ∧
        m0.length + m1.length + m2.length + m3.length =
          l0.length + l1.length + l2.length + l3.length + pts.length ∧
        (↑m0 + ↑m1 + ↑m2 + ↑m3 : Multiset SonarPoint) =
          ↑l0 + ↑l1 + ↑l2 + ↑l3 + ↑pts := by
  intro pts
  induction pts with
  | nil =>
    intro l0 l1 l2 l3 free hin h0 h1 h2 h3 hlen
    refine ⟨l0, l1, l2, l3, rfl, h0, h1, h2, h3, by simp, by simp⟩
  | cons p rest ih =>
    intro l0 l1 l2 l3 free hin h0 h1 h2 h3 hlen
    have hp : sonar_bounds_contains_point b p.world_x p.world_y = true :=
      hin p (List.mem_cons_self p rest)
    have hrest : ∀ q ∈ rest, sonar_bounds_contains_point b q.world_x q.world_y = true :=
      fun q hq => hin q (List.mem_cons_of_mem p hq)
    have hcover := sonar_child_cover hp
    simp only [List.length_cons] at hlen
    rcases hc0 : sonar_bounds_contains_point (sonar_quad_child_bounds b).1
        p.world_x p.world_y with _ | _
    · rcases hc1 : sonar_bounds_contains_point (sonar_quad_child_bounds b).2.1
          p.world_x p.world_y with _ | _
      · rcases hc2 : sonar_bounds_contains_point (sonar_quad_child_bounds b).2.2.1
            p.world_x p.world_y with _ | _
        · rcases hc3 : sonar_bounds_contains_point (sonar_quad_child_bounds b).2.2.2
              p.world_x p.world_y with _ | _
          · rw [hc0, hc1, hc2, hc3] at hcover
            simp at hcover
          · -- lands in child 3
            obtain ⟨m0, m1, m2, m3, heq, hm0, hm1, hm2, hm3, hml, hmm⟩ :=
              ih l0 l1 l2 (l3 ++ [p]) free hrest h0 h1 h2
                (by
                  intro q hq
                  rcases List.mem_append.1 hq with hq | hq
                  · exact h3 q hq
                  · rw [List.mem_singleton.1 hq]; exact hc3)
                (by simp; omega)
            refine ⟨m0, m1, m2, m3, ?_, hm0, hm1, hm2, hm3, by simp at hml ⊢; omega, ?_⟩
            · unfold sonar_quad_redistribute_go
              simp only [SonarQuadNode.bounds_leaf, hc0, hc1, hc2, hc3,
                Bool.false_eq_true, if_false, if_true]
              rw [hins free _ l3 (d + 1) p hc3 (by omega)]
              exact heq
            · rw [hmm, show (p :: rest : List SonarPoint) = [p] ++ rest from rfl]
              rw [← Multiset.coe_add, ← Multiset.coe_add]
              abel
        · -- lands in child 2
          obtain ⟨m0, m1, m2, m3, heq, hm0, hm1, hm2, hm3, hml, hmm⟩ :=
            ih l0 l1 (l2 ++ [p]) l3 free hrest h0 h1
              (by
                intro q hq
                rcases List.mem_append.1 hq with hq | hq
                · exact h2 q hq
                · rw [List.mem_singleton.1 hq]; exact hc2)
              h3 (by simp; omega)
          refine ⟨m0, m1, m2, m3, ?_, hm0, hm1, hm2, hm3, by simp at hml ⊢; omega, ?_⟩
          · unfold sonar_quad_redistribute_go
            simp only [SonarQuadNode.bounds_leaf, hc0, hc1, hc2,
              Bool.false_eq_true, if_false, if_true]
            rw [hins free _ l2 (d + 1) p hc2 (by omega)]
            exact heq
          · rw [hmm, show (p :: rest : List SonarPoint) = [p] ++ rest from rfl]
            rw [← Multiset.coe_add, ← Multiset.coe_add]
            abel
      · -- lands in child 1
        obtain ⟨m0, m1, m2, m3, heq, hm0, hm1, hm2, hm3, hml, hmm⟩ :=
          ih l0 (l1 ++ [p]) l2 l3 free hrest h0
            (by
              intro q hq
              rcases List.mem_append.1 hq with hq | hq
              · exact h1 q hq
              · rw [List.mem_singleton.1 hq]; exact hc1)
            h2 h3 (by simp; omega)
        refine ⟨m0, m1, m2, m3, ?_, hm0, hm1, hm2, hm3, by simp at hml ⊢; omega, ?_⟩
        · unfold sonar_quad_redistribute_go
          simp only [SonarQuadNode.bounds_leaf, hc0, hc1,
            Bool.false_eq_true, if_false, if_true]
          rw [hins free _ l1 (d + 1) p hc1 (by omega)]
          exact heq
        · rw [hmm, show (p :: rest : List SonarPoint) = [p] ++ rest from rfl]
          rw [← Multiset.coe_add, ← Multiset.coe_add]
          abel
    · -- lands in child 0
      obtain ⟨m0, m1, m2, m3, heq, hm0, hm1, hm2, hm3, hml, hmm⟩ :=
        ih (l0 ++ [p]) l1 l2 l3 free hrest
          (by
            intro q hq
            rcases List.mem_append.1 hq with hq | hq
            · exact h0 q hq
            · rw [List.mem_singleton.1 hq]; exact hc0)
          h1 h2 h3 (by simp; omega)
      refine ⟨m0, m1, m2, m3, ?_, hm0, hm1, hm2, hm3, by simp at hml ⊢; omega, ?_⟩
      · unfold sonar_quad_redistribute_go
        simp only [SonarQuadNode.bounds_leaf, hc0, if_true]
        rw [hins free _ l0 (d + 1) p hc0 (by omega)]
        exact heq
      · rw [hmm, show (p :: rest : List SonarPoint) = [p] ++ rest from rfl]
        rw [← Multiset.coe_add, ← Multiset.coe_add]
        abel

/-- Subdivision spec: subdividing a well-formed full leaf below the depth cap
with at least four free nodes yields a well-formed internal node with an empty
own list whose children hold exactly the old points. -/
theorem sonar_quad_subdivide_go_spec
    {ins : Nat → SonarQuadNode → SonarPoint → Nat × SonarQuadNode × Bool}
    (hins : ∀ free b2 pts2 d2 p,
      sonar_bounds_contains_point b2 p.world_x p.world_y = true →
      pts2.length < SONAR_QUADTREE_MAX_POINTS →
      ins free (.leaf b2 pts2 d2) p = (free, .leaf b2 (pts2 ++ [p]) d2, true))
    {freeNodes : Nat} {b : SonarBounds} {pts : List SonarPoint} {d : Nat}
    (hwf : sonar_wf (.leaf b pts d) = true)
    (h6 : d < SONAR_QUADTREE_MAX_DEPTH) (hf : 4 ≤ freeNodes) :
    ∃ m0 m1 m2 m3 : List SonarPoint,
      sonar_quad_subdivide_go ins freeNodes b pts d =
        (freeNodes - 4, .internal b [] d
          (.leaf (sonar_quad_child_bounds b).1 m0 (d + 1))
          (.leaf (sonar_quad_child_bounds b).2.1 m1 (d + 1))
          (.leaf (sonar_quad_child_bounds b).2.2.1 m2 (d + 1))
          (.leaf (sonar_quad_child_bounds b).2.2.2 m3 (d + 1))) ∧
      sonar_wf (.internal b [] d
        (.leaf (sonar_quad_child_bounds b).1 m0 (d + 1))
        (.leaf (sonar_quad_child_bounds b).2.1 m1 (d + 1))
        (.leaf (sonar_quad_child_bounds b).2.2.1 m2 (d + 1))
        (.leaf (sonar_quad_child_bounds b).2.2.2 m3 (d + 1))) = true ∧
      (↑m0 + ↑m1 + ↑m2 + ↑m3 : Multiset SonarPoint) = ↑pts := by
  obtain ⟨hsane, hok, hd⟩ := sonar_wf_leaf_iff.1 hwf
  obtain ⟨hinb, hlen⟩ := sonar_points_ok_iff.1 hok
  obtain ⟨m0, m1, m2, m3, heq, hm0, hm1, hm2, hm3, hml, hmm⟩ :=
    sonar_quad_redistribute_go_spec hins b d pts [] [] [] [] (freeNodes - 4)
      hinb (by simp) (by simp) (by simp) (by simp) (by simpa using hlen)
  simp only [List.length_nil, Nat.zero_add] at hml
  obtain ⟨hs0, hs1, hs2, hs3⟩ := sonar_child_sane hsane
  refine ⟨m0, m1, m2, m3, ?_, ?_, ?_⟩
  · rw [sonar_quad_subdivide_go_success ins h6 hf]
    simp only []
    rw [heq]
  · rw [sonar_wf_internal_iff]
    refine ⟨hsane, by simp [sonar_points_ok], h6, by simp, by simp, by simp,
      by simp, by simp, by simp, by simp, by simp, ?_, ?_, ?_, ?_⟩
    · rw [sonar_wf_leaf_iff]
      refine ⟨hs0, sonar_points_ok_iff.2 ⟨hm0, by omega⟩, by
        simp [SONAR_QUADTREE_MAX_DEPTH] at h6 ⊢; omega⟩
    · rw [sonar_wf_leaf_iff]
      refine ⟨hs1, sonar_points_ok_iff.2 ⟨hm1, by omega⟩, by
        simp [SONAR_QUADTREE_MAX_DEPTH] at h6 ⊢; omega⟩
    · rw [sonar_wf_leaf_iff]
      refine ⟨hs2, sonar_points_ok_iff.2 ⟨hm2, by omega⟩, by
        simp [SONAR_QUADTREE_MAX_DEPTH] at h6 ⊢; omega⟩
    · rw [sonar_wf_leaf_iff]
      refine ⟨hs3, sonar_points_ok_iff.2 ⟨hm3, by omega⟩, by
        simp [SONAR_QUADTREE_MAX_DEPTH] at h6 ⊢; omega⟩
  · simpa using hmm

/-- Child-loop spec: when the loop reports success on a well-formed internal
node, the result is well formed, keeps the node's bounds and depth, and adds
exactly the new point to the stored multiset.  The two hypotheses about the
insert routine are its non-mutating failure property and its success spec on
the four children. -/
theorem sonar_quad_children_go_spec
    {ins : Nat → SonarQuadNode → SonarPoint → Nat × SonarQuadNode × Bool}
    (hfalse : ∀ free n p, (ins free n p).2.2 = false → ins free n p = (free, n, false))
    {freeNodes : Nat} {b : SonarBounds} {pts : List SonarPoint} {d : Nat}
    {c0 c1 c2 c3 : SonarQuadNode} {point : SonarPoint}
    (hwf : sonar_wf (.internal b pts d c0 c1 c2 c3) = true)
    (hc : sonar_bounds_contains_point b point.world_x point.world_y = true)
    (ht : ∀ (c : SonarQuadNode), (c = c0 ∨ c = c1 ∨ c = c2 ∨ c = c3) → ∀ free2 : Nat,
      (ins free2 c point).2.2 = true →
      sonar_wf (ins free2 c point).2.1 = true ∧
      (ins free2 c point).2.1.bounds = c.bounds ∧
      (ins free2 c point).2.1.depth = c.depth ∧
      ((sonar_stored (ins free2 c point).2.1 : Multiset SonarPoint) =
        point ::ₘ ↑(sonar_stored c)))
    (htrue : (sonar_quad_children_go ins freeNodes b pts d c0 c1 c2 c3 point).2.2 = true) :
    sonar_wf (sonar_quad_children_go ins freeNodes b pts d c0 c1 c2 c3 point).2.1 = true ∧
    (sonar_quad_children_go ins freeNodes b pts d c0 c1 c2 c3 point).2.1.bounds = b ∧
    (sonar_quad_children_go ins freeNodes b pts d c0 c1 c2 c3 point).2.1.depth = d ∧
    ((sonar_stored (sonar_quad_children_go ins freeNodes b pts d c0 c1 c2 c3 point).2.1 :
        Multiset SonarPoint) =
      point ::ₘ ↑(sonar_stored (.internal b pts d c0 c1 c2 c3))) := by
  obtain ⟨hsane, hok, hd, hb0, hb1, hb2, hb3, hd0, hd1, hd2, hd3, hw0, hw1, hw2, hw3⟩ :=
    sonar_wf_internal_iff.1 hwf
  unfold sonar_quad_children_go at htrue ⊢
  rcases h0 : (ins freeNodes c0 point).2.2 with _ | _
  · rw [hfalse _ _ _ h0] at htrue ⊢
    simp only [Bool.false_eq_true, if_false] at htrue ⊢
    rcases h1 : (ins freeNodes c1 point).2.2 with _ | _
    · rw [hfalse _ _ _ h1] at htrue ⊢
      simp only [Bool.false_eq_true, if_false] at htrue ⊢
      rcases h2 : (ins freeNodes c2 point).2.2 with _ | _
      · rw [hfalse _ _ _ h2] at htrue ⊢
        simp only [Bool.false_eq_true, if_false] at htrue ⊢
        rcases h3 : (ins freeNodes c3 point).2.2 with _ | _
        · rw [hfalse _ _ _ h3] at htrue ⊢
          simp only [Bool.false_eq_true, if_false] at htrue ⊢
          rcases hl : decide (pts.length < SONAR_QUADTREE_MAX_POINTS) with _ | _
          · simp [of_decide_eq_false hl] at htrue
          · simp only [of_decide_eq_true hl, if_true]
            refine ⟨?_, rfl, rfl, ?_⟩
            · rw [sonar_wf_internal_iff]
              obtain ⟨hinb, hlen⟩ := sonar_points_ok_iff.1 hok
              refine ⟨hsane, sonar_points_ok_iff.2 ⟨?_, ?_⟩, hd, hb0, hb1, hb2,
                hb3, hd0, hd1, hd2, hd3, hw0, hw1, hw2, hw3⟩
              · intro q hq
                rcases List.mem_append.1 hq with hq | hq
                · exact hinb q hq
                · rw [List.mem_singleton.1 hq]; exact hc
              · have := of_decide_eq_true hl; simp; omega
            · simp only [sonar_stored_internal]
              simp only [← Multiset.coe_add, Multiset.coe_singleton,
                ← Multiset.singleton_add]
              abel
        · obtain ⟨hwF, hbF, hdF, hsF⟩ := ht c3 (by tauto) _ h3
          simp only [h3, if_true]
          refine ⟨?_, rfl, rfl, ?_⟩
          · rw [sonar_wf_internal_iff]
            exact ⟨hsane, hok, hd, hb0, hb1, hb2, hbF.trans hb3, hd0, hd1, hd2,
              hdF.trans hd3, hw0, hw1, hw2, hwF⟩
          · simp only [sonar_stored_internal]
            simp only [← Multiset.coe_add]
            rw [hsF]
            simp only [← Multiset.singleton_add]
            abel
      · obtain ⟨hwF, hbF, hdF, hsF⟩ := ht c2 (by tauto) _ h2
        simp only [h2, if_true]
        refine ⟨?_, rfl, rfl, ?_⟩
        · rw [sonar_wf_internal_iff]
          exact ⟨hsane, hok, hd, hb0, hb1, hbF.trans hb2, hb3, hd0, hd1,
            hdF.trans hd2, hd3, hw0, hw1, hwF, hw3⟩
        · simp only [sonar_stored_internal]
          simp only [← Multiset.coe_add]
          rw [hsF]
          simp only [← Multiset.singleton_add]
          abel
    · obtain ⟨hwF, hbF, hdF, hsF⟩ := ht c1 (by tauto) _ h1
      simp only [h1, if_true]
      refine ⟨?_, rfl, rfl, ?_⟩
      · rw [sonar_wf_internal_iff]
        exact ⟨hsane, hok, hd, hb0, hbF.trans hb1, hb2, hb3, hd0,
          hdF.trans hd1, hd2, hd3, hw0, hwF, hw2, hw3⟩
      · simp only [sonar_stored_internal]
        simp only [← Multiset.coe_add]
        rw [hsF]
        simp only [← Multiset.singleton_add]
        abel
  · obtain ⟨hwF, hbF, hdF, hsF⟩ := ht c0 (by tauto) _ h0
    simp only [h0, if_true]
    refine ⟨?_, rfl, rfl, ?_⟩
    · rw [sonar_wf_internal_iff]
      exact ⟨hsane, hok, hd, hbF.trans hb0, hb1, hb2, hb3,
        hdF.trans hd0, hd1, hd2, hd3, hwF, hw1, hw2, hw3⟩
    · simp only [sonar_stored_internal]
      simp only [← Multiset.coe_add]
      rw [hsF]
      simp only [← Multiset.singleton_add]
      abel

/-- Insert spec: a successful sonar_quad_insert on a well-formed node with
enough fuel (any fuel of at least 16 from the root) preserves well-formedness,
bounds and depth, and adds exactly the new point to the stored multiset. -/
theorem sonar_quad_insert_spec (fuel : Nat) :
    ∀ (freeNodes : Nat) (node : SonarQuadNode) (point : SonarPoint),
      sonar_wf node = true →
      16 ≤ fuel + 2 * node.depth →
      (sonar_quad_insert fuel freeNodes node point).2.2 = true →
      sonar_wf (sonar_quad_insert fuel freeNodes node point).2.1 = true ∧
      (sonar_quad_insert fuel freeNodes node point).2.1.bounds = node.bounds ∧
      (sonar_quad_insert fuel freeNodes node point).2.1.depth = node.depth ∧
      ((sonar_stored (sonar_quad_insert fuel freeNodes node point).2.1 :
          Multiset SonarPoint) = point ::ₘ ↑(sonar_stored node)) := by
  induction fuel with
  | zero =>
    intro freeNodes node point hwf hfuel htrue
    have := sonar_wf_depth_le hwf
    simp [SONAR_QUADTREE_MAX_DEPTH] at this
    omega
  | succ f ih =>
    intro freeNodes node point hwf hfuel htrue
    have hdle := sonar_wf_depth_le hwf
    simp only [SONAR_QUADTREE_MAX_DEPTH] at hdle
    have hf3 : 3 ≤ f := by omega
    cases node with
    | leaf b pts d =>
      simp only [SonarQuadNode.depth_leaf] at hfuel
      rw [sonar_quad_insert_succ_leaf] at htrue ⊢
      rcases hc : sonar_bounds_contains_point b point.world_x point.world_y with _ | _
      · simp [hc] at htrue
      · simp only [hc, Bool.not_true, Bool.false_eq_true, if_false] at htrue ⊢
        rcases hl : decide (pts.length < SONAR_QUADTREE_MAX_POINTS) with _ | _
        · simp only [of_decide_eq_false hl, if_false] at htrue ⊢
          by_cases hguard : SONAR_QUADTREE_MAX_DEPTH ≤ d ∨ freeNodes < 4
          · rw [sonar_quad_subdivide_go_guard _ hguard] at htrue
            simp only [of_decide_eq_false hl, if_false] at htrue
            exact absurd htrue (by simp)
          · push_neg at hguard
            have happ : ∀ free b2 pts2 d2 p,
                sonar_bounds_contains_point b2 p.world_x p.world_y = true →
                pts2.length < SONAR_QUADTREE_MAX_POINTS →
                sonar_quad_insert f free (.leaf b2 pts2 d2) p =
                  (free, .leaf b2 (pts2 ++ [p]) d2, true) :=
              fun free b2 pts2 d2 p h1 h2 =>
                sonar_quad_insert_leaf_append (by omega) h1 h2
            obtain ⟨m0, m1, m2, m3, heqS, hwfS, hmsS⟩ :=
              sonar_quad_subdivide_go_spec happ hwf hguard.1 hguard.2
            rw [heqS] at htrue ⊢
            have hchild : ∀ (c : SonarQuadNode),
                (c = SonarQuadNode.leaf (sonar_quad_child_bounds b).1 m0 (d + 1) ∨
                 c = SonarQuadNode.leaf (sonar_quad_child_bounds b).2.1 m1 (d + 1) ∨
                 c = SonarQuadNode.leaf (sonar_quad_child_bounds b).2.2.1 m2 (d + 1) ∨
                 c = SonarQuadNode.leaf (sonar_quad_child_bounds b).2.2.2 m3 (d + 1)) →
                ∀ free2 : Nat,
                (sonar_quad_insert f free2 c point).2.2 = true →
                sonar_wf (sonar_quad_insert f free2 c point).2.1 = true ∧
                (sonar_quad_insert f free2 c point).2.1.bounds = c.bounds ∧
                (sonar_quad_insert f free2 c point).2.1.depth = c.depth ∧
                ((sonar_stored (sonar_quad_insert f free2 c point).2.1 :
                    Multiset SonarPoint) = point ::ₘ ↑(sonar_stored c)) := by
              intro c hcm free2 hc2
              have hwfc : sonar_wf c = true := by
                obtain ⟨_, _, _, _, _, _, _, _, _, _, _, w0, w1, w2, w3⟩ :=
                  sonar_wf_internal_iff.1 hwfS
                rcases hcm with rfl | rfl | rfl | rfl <;> assumption
              have hdc : c.depth = d + 1 := by
                rcases hcm with rfl | rfl | rfl | rfl <;> rfl
              exact ih free2 c point hwfc (by rw [hdc]; omega) hc2
            exact sonar_quad_children_go_spec
              (fun free n p => sonar_quad_insert_false f free n p) hwfS hc hchild htrue
              |>.imp id (fun h => h.imp id (fun h2 => h2.imp id (fun h3 => by
                rw [h3]
                simp only [sonar_stored_internal, sonar_stored_leaf, List.nil_append]
                rw [show ((point ::ₘ ↑(m0 ++ (m1 ++ (m2 ++ m3))) : Multiset SonarPoint)) =
                  point ::ₘ (↑m0 + ↑m1 + ↑m2 + ↑m3) by
                    simp only [← Multiset.coe_add]; congr 1; abel]
                rw [hmsS])))
        · have hlt := of_decide_eq_true hl
          rw [if_pos hlt]
          refine ⟨?_, rfl, rfl, ?_⟩
          · obtain ⟨hsane, hok, hd6⟩ := sonar_wf_leaf_iff.1 hwf
            obtain ⟨hinb, hlen⟩ := sonar_points_ok_iff.1 hok
            rw [sonar_wf_leaf_iff]
            refine ⟨hsane, sonar_points_ok_iff.2 ⟨?_, by simp; omega⟩, hd6⟩
            intro q hq
            rcases List.mem_append.1 hq with hq | hq
            · exact hinb q hq
            · rw [List.mem_singleton.1 hq]; exact hc
          · simp only [sonar_stored_leaf]
            simp only [← Multiset.coe_add, Multiset.coe_singleton,
              ← Multiset.singleton_add]
            abel
    | internal b pts d c0 c1 c2 c3 =>
      simp only [SonarQuadNode.depth_internal] at hfuel
      rw [sonar_quad_insert_succ_internal] at htrue ⊢
      rcases hc : sonar_bounds_contains_point b point.world_x point.world_y with _ | _
      · simp [hc] at htrue
      · simp only [hc, Bool.not_true, Bool.false_eq_true, if_false] at htrue ⊢
        have hchild : ∀ (c : SonarQuadNode), (c = c0 ∨ c = c1 ∨ c = c2 ∨ c = c3) →
            ∀ free2 : Nat,
            (sonar_quad_insert f free2 c point).2.2 = true →
            sonar_wf (sonar_quad_insert f free2 c point).2.1 = true ∧
            (sonar_quad_insert f free2 c point).2.1.bounds = c.bounds ∧
            (sonar_quad_insert f free2 c point).2.1.depth = c.depth ∧
            ((sonar_stored (sonar_quad_insert f free2 c point).2.1 :
                Multiset SonarPoint) = point ::ₘ ↑(sonar_stored c)) := by
          intro c hcm free2 hc2
          obtain ⟨_, _, hdlt, _, _, _, _, e0, e1, e2, e3, w0, w1, w2, w3⟩ :=
            sonar_wf_internal_iff.1 hwf
          have hwfc : sonar_wf c = true := by
            rcases hcm with rfl | rfl | rfl | rfl <;> assumption
          have hdc : c.depth = d + 1 := by
            rcases hcm with rfl | rfl | rfl | rfl <;> assumption
          exact ih free2 c point hwfc (by rw [hdc]; omega) hc2
        exact sonar_quad_children_go_spec
          (fun free n p => sonar_quad_insert_false f free n p) hwf hc hchild htrue

/-- Scan spec: when the buffer has room for every match, the scan loop appends
exactly the matching points, and can only report a full buffer when the buffer
is exactly full afterwards. -/
theorem sonar_scan_points_spec (bounds : SonarBounds) (max_points : Nat) :
    ∀ (pts acc : List SonarPoint),
      acc.length + (pts.filter fun p =>
        sonar_bounds_contains_point bounds p.world_x p.world_y).length ≤ max_points →
      (sonar_scan_points pts bounds acc max_points).1 =
        acc ++ (pts.filter fun p =>
          sonar_bounds_contains_point bounds p.world_x p.world_y) ∧
      ((sonar_scan_points pts bounds acc max_points).2 = false →
        max_points = acc.length + (pts.filter fun p =>
          sonar_bounds_contains_point bounds p.world_x p.world_y).length) := by
  intro pts
  induction pts with
  | nil =>
    intro acc hlen
    exact ⟨by simp [sonar_scan_points], by intro h; simp [sonar_scan_points] at h⟩
  | cons p rest ih =>
    intro acc hlen
    unfold sonar_scan_points
    rcases hcap : decide (max_points ≤ acc.length) with _ | _
    · have hcap2 := of_decide_eq_false hcap
      simp only [of_decide_eq_false hcap, if_false]
      rcases hm : sonar_bounds_contains_point bounds p.world_x p.world_y with _ | _
      · simp only [hm, Bool.false_eq_true, if_false]
        have hfe : ((p :: rest).filter fun q =>
            sonar_bounds_contains_point bounds q.world_x q.world_y) =
            rest.filter fun q =>
              sonar_bounds_contains_point bounds q.world_x q.world_y := by
          simp [List.filter_cons, hm]
        rw [hfe] at hlen ⊢
        exact ih acc hlen
      · simp only [hm, if_true]
        have hfe : ((p :: rest).filter fun q =>
            sonar_bounds_contains_point bounds q.world_x q.world_y) =
            p :: (rest.filter fun q =>
              sonar_bounds_contains_point bounds q.world_x q.world_y) := by
          simp [List.filter_cons, hm]
        rw [hfe] at hlen ⊢
        have hlen2 : (acc ++ [p]).length + (rest.filter fun q =>
            sonar_bounds_contains_point bounds q.world_x q.world_y).length ≤
            max_points := by
          simp at hlen ⊢; omega
        obtain ⟨h1, h2⟩ := ih (acc ++ [p]) hlen2
        refine ⟨by rw [h1]; simp, ?_⟩
        intro hfl
        have := h2 hfl
        simp at this ⊢
        omega
    · have hcap2 := of_decide_eq_true hcap
      simp only [of_decide_eq_true hcap, if_true]
      have hf0 : ((p :: rest).filter fun q =>
          sonar_bounds_contains_point bounds q.world_x q.world_y).length = 0 := by
        omega
      rw [List.length_eq_zero.1 hf0]
      exact ⟨by simp, fun _ => by simp; omega⟩

/-- Query spec: on a well-formed tree, when the buffer has room for every
stored point inside the window, the query returns the accumulator followed by
exactly the matching stored points, in traversal order; a false flag can only
be reported with the buffer exactly full. -/
theorem sonar_quad_query_spec (w : SonarBounds) (max_points : Nat) :
    ∀ (node : SonarQuadNode) (acc : List SonarPoint),
      sonar_wf node = true →
      acc.length + ((sonar_stored node).filter fun p =>
        sonar_bounds_contains_point w p.world_x p.world_y).length ≤ max_points →
      (sonar_quad_query node w acc max_points).1 =
        acc ++ ((sonar_stored node).filter fun p =>
          sonar_bounds_contains_point w p.world_x p.world_y) ∧
      ((sonar_quad_query node w acc max_points).2 = false →
        max_points = acc.length + ((sonar_stored node).filter fun p =>
          sonar_bounds_contains_point w p.world_x p.world_y).length) := by
  intro node
  induction node with
  | leaf b pts d =>
    intro acc hwf hlen
    unfold sonar_quad_query
    rcases hI : sonar_bounds_intersect b w with _ | _
    · have hnil : ((sonar_stored (SonarQuadNode.leaf b pts d)).filter fun p =>
          sonar_bounds_contains_point w p.world_x p.world_y) = [] := by
        rw [List.filter_eq_nil_iff]
        intro p hp hF
        have hin := sonar_stored_in_bounds hwf p hp
        have hint := sonar_intersect_of_contains hin hF
        simp only [SonarQuadNode.bounds_leaf] at hint
        rw [hI] at hint
        exact Bool.false_ne_true hint
      simp only [SonarQuadNode.bounds_leaf, hI, Bool.not_false, if_true]
      rw [hnil]
      exact ⟨by simp, by intro h; simp at h⟩
    · simp only [SonarQuadNode.bounds_leaf, hI, Bool.not_true,
        Bool.false_eq_true, if_false]
      exact sonar_scan_points_spec w max_points pts acc hlen
  | internal b pts d c0 c1 c2 c3 ih0 ih1 ih2 ih3 =>
    intro acc hwf hlen
    obtain ⟨hsane, hok, hdlt, hb0, hb1, hb2, hb3, _, _, _, _, hw0, hw1, hw2, hw3⟩ :=
      sonar_wf_internal_iff.1 hwf
    unfold sonar_quad_query
    rcases hI : sonar_bounds_intersect b w with _ | _
    · have hnil : ((sonar_stored (SonarQuadNode.internal b pts d c0 c1 c2 c3)).filter
          fun p => sonar_bounds_contains_point w p.world_x p.world_y) = [] := by
        rw [List.filter_eq_nil_iff]
        intro p hp hF
        have hin := sonar_stored_in_bounds hwf p hp
        have hint := sonar_intersect_of_contains hin hF
        simp only [SonarQuadNode.bounds_internal] at hint
        rw [hI] at hint
        exact Bool.false_ne_true hint
      simp only [SonarQuadNode.bounds_internal, hI, Bool.not_false, if_true]
      rw [hnil]
      exact ⟨by simp, by intro h; simp at h⟩
    · simp only [SonarQuadNode.bounds_internal, hI, Bool.not_true,
        Bool.false_eq_true, if_false]
      rw [sonar_stored_internal, List.filter_append, List.filter_append,
        List.filter_append, List.filter_append, List.length_append,
        List.length_append, List.length_append, List.length_append] at hlen
      obtain ⟨escan, fscan⟩ := sonar_scan_points_spec w max_points pts acc
        (by omega)
      rcases hfl : (sonar_scan_points pts w acc max_points).2 with _ | _
      · simp only [hfl, Bool.not_false, if_true]
        have hmax := fscan hfl
        have h0 : ((sonar_stored c0).filter fun p =>
            sonar_bounds_contains_point w p.world_x p.world_y) = [] :=
          List.length_eq_zero.1 (by omega)
        have h1 : ((sonar_stored c1).filter fun p =>
            sonar_bounds_contains_point w p.world_x p.world_y) = [] :=
          List.length_eq_zero.1 (by omega)
        have h2 : ((sonar_stored c2).filter fun p =>
            sonar_bounds_contains_point w p.world_x p.world_y) = [] :=
          List.length_eq_zero.1 (by omega)
        have h3 : ((sonar_stored c3).filter fun p =>
            sonar_bounds_contains_point w p.world_x p.world_y) = [] :=
          List.length_eq_zero.1 (by omega)
        constructor
        · rw [escan]
          simp [List.filter_append, h0, h1, h2, h3]
        · intro _
          simp [List.filter_append, h0, h1, h2, h3]
          omega
      · simp only [hfl, Bool.not_true, Bool.false_eq_true, if_false]
        have hlscan : (sonar_scan_points pts w acc max_points).1.length =
            acc.length + (pts.filter fun p =>
              sonar_bounds_contains_point w p.world_x p.world_y).length := by
          rw [escan]; simp
        obtain ⟨e0, f0⟩ := ih0 (sonar_scan_points pts w acc max_points).1 hw0
          (by omega)
        rcases hq0 : (sonar_quad_query c0 w
            (sonar_scan_points pts w acc max_points).1 max_points).2 with _ | _
        · simp only [hq0, Bool.not_false, if_true]
          have hmax := f0 hq0
          have h1 : ((sonar_stored c1).filter fun p =>
              sonar_bounds_contains_point w p.world_x p.world_y) = [] :=
            List.length_eq_zero.1 (by omega)
          have h2 : ((sonar_stored c2).filter fun p =>
              sonar_bounds_contains_point w p.world_x p.world_y) = [] :=
            List.length_eq_zero.1 (by omega)
          have h3 : ((sonar_stored c3).filter fun p =>
              sonar_bounds_contains_point w p.world_x p.world_y) = [] :=
            List.length_eq_zero.1 (by omega)
          constructor
          · rw [e0, escan]
            simp [List.filter_append, h1, h2, h3]
          · intro _
            simp [List.filter_append, h1, h2, h3]
            omega
        · simp only [hq0, Bool.not_true, Bool.false_eq_true, if_false]
          have hl0 : (sonar_quad_query c0 w
              (sonar_scan_points pts w acc max_points).1 max_points).1.length =
              acc.length + (pts.filter fun p =>
                sonar_bounds_contains_point w p.world_x p.world_y).length +
              ((sonar_stored c0).filter fun p =>
                sonar_bounds_contains_point w p.world_x p.world_y).length := by
            rw [e0]
            simp only [List.length_append, hlscan]
          obtain ⟨e1, f1⟩ := ih1 (sonar_quad_query c0 w
            (sonar_scan_points pts w acc max_points).1 max_points).1 hw1
            (by omega)
          rcases hq1 : (sonar_quad_query c1 w (sonar_quad_query c0 w
              (sonar_scan_points pts w acc max_points).1 max_points).1
              max_points).2 with _ | _
          · simp only [hq1, Bool.not_false, if_true]
            have hmax := f1 hq1
            have h2 : ((sonar_stored c2).filter fun p =>
                sonar_bounds_contains_point w p.world_x p.world_y) = [] :=
              List.length_eq_zero.1 (by omega)
            have h3 : ((sonar_stored c3).filter fun p =>
                sonar_bounds_contains_point w p.world_x p.world_y) = [] :=
              List.length_eq_zero.1 (by omega)
            constructor
            · rw [e1, e0, escan]
              simp [List.filter_append, h2, h3]
            · intro _
              simp [List.filter_append, h2, h3]
              omega
          · simp only [hq1, Bool.not_true, Bool.false_eq_true, if_false]
            have hl1 : (sonar_quad_query c1 w (sonar_quad_query c0 w
                (sonar_scan_points pts w acc max_points).1 max_points).1
                max_points).1.length =
                acc.length + (pts.filter fun p =>
                  sonar_bounds_contains_point w p.world_x p.world_y).length +
                ((sonar_stored c0).filter fun p =>
                  sonar_bounds_contains_point w p.world_x p.world_y).length +
                ((sonar_stored c1).filter fun p =>
                  sonar_bounds_contains_point w p.world_x p.world_y).length := by
              rw [e1]
              simp only [List.length_append, hl0]
            obtain ⟨e2, f2⟩ := ih2 (sonar_quad_query c1 w (sonar_quad_query c0 w
              (sonar_scan_points pts w acc max_points).1 max_points).1
              max_points).1 hw2 (by omega)
            rcases hq2 : (sonar_quad_query c2 w (sonar_quad_query c1 w
                (sonar_quad_query c0 w (sonar_scan_points pts w acc
                max_points).1 max_points).1 max_points).1 max_points).2 with _ | _
            · simp only [hq2, Bool.not_false, if_true]
              have hmax := f2 hq2
              have h3 : ((sonar_stored c3).filter fun p =>
                  sonar_bounds_contains_point w p.world_x p.world_y) = [] :=
                List.length_eq_zero.1 (by omega)
              constructor
              · rw [e2, e1, e0, escan]
                simp [List.filter_append, h3]
              · intro _
                simp [List.filter_append, h3]
                omega
            · simp only [hq2, Bool.not_true, Bool.false_eq_true, if_false]
              have hl2 : (sonar_quad_query c2 w (sonar_quad_query c1 w
                  (sonar_quad_query c0 w (sonar_scan_points pts w acc
                  max_points).1 max_points).1 max_points).1 max_points).1.length =
                  acc.length + (pts.filter fun p =>
                    sonar_bounds_contains_point w p.world_x p.world_y).length +
                  ((sonar_stored c0).filter fun p =>
                    sonar_bounds_contains_point w p.world_x p.world_y).length +
                  ((sonar_stored c1).filter fun p =>
                    sonar_bounds_contains_point w p.world_x p.world_y).length +
                  ((sonar_stored c2).filter fun p =>
                    sonar_bounds_contains_point w p.world_x p.world_y).length := by
                rw [e2]
                simp only [List.length_append, hl1]
              obtain ⟨e3, f3⟩ := ih3 (sonar_quad_query c2 w (sonar_quad_query c1 w
                (sonar_quad_query c0 w (sonar_scan_points pts w acc
                max_points).1 max_points).1 max_points).1 max_points).1 hw3
                (by omega)
              constructor
              · rw [e3, e2, e1, e0, escan]
                simp [List.filter_append]
              · intro hfl3
                have hmax := f3 hfl3
                simp [List.filter_append]
                omega

/-- The degenerate one-coordinate window contains exactly its coordinate. -/
theorem sonar_contains_degenerate {x y a b : Int} :
    sonar_bounds_contains_point (sonar_bounds_create x y x y) a b = true ↔
      a = x ∧ b = y := by
  rw [sonar_contains_iff]
  simp [sonar_bounds_create]
  omega

/-- With pairwise distinct coordinates, at most one stored point matches a
degenerate window. -/
theorem sonar_filter_coord_le_one {x y : Int} :
    ∀ (l : List SonarPoint),
      (l.map fun p => (p.world_x, p.world_y)).Nodup →
      (l.filter fun p => sonar_bounds_contains_point
        (sonar_bounds_create x y x y) p.world_x p.world_y).length ≤ 1 := by
  intro l
  induction l with
  | nil => intro _; simp
  | cons p rest ih =>
    intro hnd
    simp only [List.map_cons, List.nodup_cons] at hnd
    rcases hm : sonar_bounds_contains_point (sonar_bounds_create x y x y)
        p.world_x p.world_y with _ | _
    · rw [List.filter_cons_of_neg (by simp [hm])]
      exact ih hnd.2
    · rw [List.filter_cons_of_pos (by simp [hm])]
      have hrest : (rest.filter fun q => sonar_bounds_contains_point
          (sonar_bounds_create x y x y) q.world_x q.world_y) = [] := by
        rw [List.filter_eq_nil_iff]
        intro q hq hQ
        obtain ⟨hqx, hqy⟩ := sonar_contains_degenerate.1 hQ
        obtain ⟨hpx, hpy⟩ := sonar_contains_degenerate.1 hm
        exact hnd.1 (by
          rw [List.mem_map]
          exact ⟨q, hq, by rw [hqx, hqy, hpx, hpy]⟩)
      rw [hrest]
      simp

/-- A matching stored point makes the degenerate-window filter exactly that
singleton. -/
theorem sonar_filter_coord_eq_singleton {x y : Int} {p : SonarPoint}
    {l : List SonarPoint}
    (hnd : (l.map fun q => (q.world_x, q.world_y)).Nodup)
    (hp : p ∈ l) (hx : p.world_x = x) (hy : p.world_y = y) :
    (l.filter fun q => sonar_bounds_contains_point
      (sonar_bounds_create x y x y) q.world_x q.world_y) = [p] := by
  have hmem : p ∈ l.filter fun q => sonar_bounds_contains_point
      (sonar_bounds_create x y x y) q.world_x q.world_y :=
    List.mem_filter.2 ⟨hp, by rw [sonar_contains_degenerate]; exact ⟨hx, hy⟩⟩
  have hle := @sonar_filter_coord_le_one x y l hnd
  rcases hf : l.filter fun q => sonar_bounds_contains_point
      (sonar_bounds_create x y x y) q.world_x q.world_y with _ | ⟨q, rest⟩
  · rw [hf] at hmem; simp at hmem
  · rw [hf] at hmem hle
    cases rest with
    | nil =>
      rcases List.mem_singleton.1 hmem with rfl
      exact hf
    | cons r rest2 => simp at hle

/-- sonar_chart_query_point answers none when no stored point sits at exactly
the queried coordinate. -/
theorem sonar_chart_query_point_none {chart : SonarChart} {x y : Int}
    (hinv : sonar_inv chart = true)
    (hnone : ∀ p ∈ sonar_stored chart.root, ¬(p.world_x = x ∧ p.world_y = y)) :
    sonar_chart_query_point chart x y = none := by
  obtain ⟨hwf, hnd⟩ := by
    have := hinv
    simp only [sonar_inv, Bool.and_eq_true, decide_eq_true_eq] at this
    exact this
  have hnil : ((sonar_stored chart.root).filter fun p =>
      sonar_bounds_contains_point (sonar_bounds_create x y x y)
        p.world_x p.world_y) = [] := by
    rw [List.filter_eq_nil_iff]
    intro p hp hF
    exact hnone p hp (sonar_contains_degenerate.1 hF)
  obtain ⟨e, _⟩ := sonar_quad_query_spec (sonar_bounds_create x y x y) 9
    chart.root [] hwf (by rw [hnil]; simp)
  unfold sonar_chart_query_point
  rw [e, hnil]
  simp

/-- sonar_chart_query_point answers the unique stored point at exactly the
queried coordinate. -/
theorem sonar_chart_query_point_found {chart : SonarChart} {x y : Int}
    {p : SonarPoint} (hinv : sonar_inv chart = true)
    (hp : p ∈ sonar_stored chart.root) (hx : p.world_x = x) (hy : p.world_y = y) :
    sonar_chart_query_point chart x y = some p := by
  obtain ⟨hwf, hnd⟩ := by
    have := hinv
    simp only [sonar_inv, Bool.and_eq_true, decide_eq_true_eq] at this
    exact this
  have hone := @sonar_filter_coord_eq_singleton x y p (sonar_stored chart.root) hnd hp hx hy
  obtain ⟨e, _⟩ := sonar_quad_query_spec (sonar_bounds_create x y x y) 9
    chart.root [] hwf (by rw [hone]; simp)
  unfold sonar_chart_query_point
  rw [e, hone]
  simp [hx, hy]

/-- The stored list of a coordinate-targeted in-place update is the pointwise
image of the original stored list. -/
theorem sonar_tree_update_point_stored (x y : Int) (f : SonarPoint → SonarPoint) :
    ∀ node : SonarQuadNode,
      sonar_stored (sonar_tree_update_point node x y f) =
        (sonar_stored node).map fun p =>
          if p.world_x = x ∧ p.world_y = y then f p else p := by
  intro node
  induction node with
  | leaf b pts d => simp [sonar_tree_update_point]
  | internal b pts d c0 c1 c2 c3 ih0 ih1 ih2 ih3 =>
    simp [sonar_tree_update_point, ih0, ih1, ih2, ih3]

@[simp] theorem sonar_tree_update_point_bounds (x y : Int)
    (f : SonarPoint → SonarPoint) (node : SonarQuadNode) :
    (sonar_tree_update_point node x y f).bounds = node.bounds := by
  cases node <;> rfl

@[simp] theorem sonar_tree_update_point_depth (x y : Int)
    (f : SonarPoint → SonarPoint) (node : SonarQuadNode) :
    (sonar_tree_update_point node x y f).depth = node.depth := by
  cases node <;> rfl

/-- A coordinate-preserving in-place update keeps the tree well formed. -/
theorem sonar_tree_update_point_wf (x y : Int) {f : SonarPoint → SonarPoint}
    (hco : ∀ p, (f p).world_x = p.world_x ∧ (f p).world_y = p.world_y) :
    ∀ node : SonarQuadNode, sonar_wf node = true →
      sonar_wf (sonar_tree_update_point node x y f) = true := by
  intro node
  have hpts : ∀ (b : SonarBounds) (pts : List SonarPoint),
      sonar_points_ok b pts = true →
      sonar_points_ok b (pts.map fun p =>
        if p.world_x = x ∧ p.world_y = y then f p else p) = true := by
    intro b pts hok
    obtain ⟨hin, hlen⟩ := sonar_points_ok_iff.1 hok
    refine sonar_points_ok_iff.2 ⟨?_, by simp [hlen]⟩
    intro q hq
    obtain ⟨r, hr, rfl⟩ := List.mem_map.1 hq
    by_cases hcase : r.world_x = x ∧ r.world_y = y
    · rw [if_pos hcase, (hco r).1, (hco r).2]
      exact hin r hr
    · rw [if_neg hcase]
      exact hin r hr
  induction node with
  | leaf b pts d =>
    intro hwf
    obtain ⟨hsane, hok, hd⟩ := sonar_wf_leaf_iff.1 hwf
    exact sonar_wf_leaf_iff.2 ⟨hsane, hpts b pts hok, hd⟩
  | internal b pts d c0 c1 c2 c3 ih0 ih1 ih2 ih3 =>
    intro hwf
    obtain ⟨hsane, hok, hd, hb0, hb1, hb2, hb3, hd0, hd1, hd2, hd3, hw0, hw1, hw2, hw3⟩ :=
      sonar_wf_internal_iff.1 hwf
    refine sonar_wf_internal_iff.2 ⟨hsane, hpts b pts hok, hd,
      by rw [sonar_tree_update_point_bounds]; exact hb0,
      by rw [sonar_tree_update_point_bounds]; exact hb1,
      by rw [sonar_tree_update_point_bounds]; exact hb2,
      by rw [sonar_tree_update_point_bounds]; exact hb3,
      by rw [sonar_tree_update_point_depth]; exact hd0,
      by rw [sonar_tree_update_point_depth]; exact hd1,
      by rw [sonar_tree_update_point_depth]; exact hd2,
      by rw [sonar_tree_update_point_depth]; exact hd3,
      ih0 hw0, ih1 hw1, ih2 hw2, ih3 hw3⟩

/-- Adding a point at a fresh coordinate: on success the stored multiset
grows by exactly the freshly created point and the invariant is preserved;
on failure the chart is unchanged. -/
theorem sonar_chart_add_point_new {chart : SonarChart} {x y : Int}
    {is_terrain : Bool} {tick : Nat} (hinv : sonar_inv chart = true)
    (hnone : ∀ p ∈ sonar_stored chart.root, ¬(p.world_x = x ∧ p.world_y = y)) :
    ((sonar_chart_add_point chart x y is_terrain tick).2 = true →
      sonar_inv (sonar_chart_add_point chart x y is_terrain tick).1 = true ∧
      ((sonar_stored (sonar_chart_add_point chart x y is_terrain tick).1.root :
          Multiset SonarPoint) =
        (⟨x, y, tick % 4294967296, SONAR_FADE_FULL, is_terrain⟩ : SonarPoint) ::ₘ
          ↑(sonar_stored chart.root)) ∧
      (sonar_chart_add_point chart x y is_terrain tick).1.last_fade_update =
        chart.last_fade_update) ∧
    ((sonar_chart_add_point chart x y is_terrain tick).2 = false →
      (sonar_chart_add_point chart x y is_terrain tick).1 = chart) := by
  obtain ⟨hwf, hnd⟩ := by
    have := hinv
    simp only [sonar_inv, Bool.and_eq_true, decide_eq_true_eq] at this
    exact this
  have hqp := sonar_chart_query_point_none hinv hnone
  unfold sonar_chart_add_point
  rw [hqp]
  rcases hpool : decide (chart.pointPoolSize ≤ chart.pointActive) with _ | _
  · simp only [of_decide_eq_false hpool, if_false]
    rcases hins : (sonar_quad_insert SONAR_INSERT_FUEL chart.freeNodes chart.root
        ⟨x, y, tick % 4294967296, SONAR_FADE_FULL, is_terrain⟩).2.2 with _ | _
    · have heq := sonar_quad_insert_false SONAR_INSERT_FUEL chart.freeNodes
        chart.root _ hins
      simp only [hins, Bool.false_eq_true, if_false, heq]
      simp
    · have hspec := sonar_quad_insert_spec SONAR_INSERT_FUEL chart.freeNodes
        chart.root ⟨x, y, tick % 4294967296, SONAR_FADE_FULL, is_terrain⟩ hwf
        (by simp [SONAR_INSERT_FUEL]) hins
      simp only [hins, if_true]
      constructor
      · intro _
        refine ⟨?_, hspec.2.2.2, trivial⟩
        simp only [sonar_inv, Bool.and_eq_true, decide_eq_true_eq]
        refine ⟨hspec.1, ?_⟩
        have hmsc : (↑(sonar_coords (sonar_quad_insert SONAR_INSERT_FUEL
            chart.freeNodes chart.root
            ⟨x, y, tick % 4294967296, SONAR_FADE_FULL, is_terrain⟩).2.1) :
            Multiset (Int × Int)) =
            (x, y) ::ₘ ↑(sonar_coords chart.root) := by
          unfold sonar_coords
          have hmap : ((sonar_stored ((sonar_quad_insert SONAR_INSERT_FUEL
              chart.freeNodes chart.root
              ⟨x, y, tick % 4294967296, SONAR_FADE_FULL, is_terrain⟩).2.1) :
              List SonarPoint) : Multiset SonarPoint).map
              (fun p => (p.world_x, p.world_y)) =
              (((⟨x, y, tick % 4294967296, SONAR_FADE_FULL, is_terrain⟩ :
                SonarPoint) ::ₘ ↑(sonar_stored chart.root)).map
                (fun p => (p.world_x, p.world_y))) := by
            rw [hspec.2.2.2]
          rw [Multiset.map_cons] at hmap
          exact hmap
        rw [← Multiset.coe_nodup, hmsc, Multiset.nodup_cons]
        constructor
        · intro hmem
          have hmem2 : (x, y) ∈ sonar_coords chart.root := by
            simpa using hmem
          obtain ⟨p, hp, hpc⟩ := List.mem_map.1 hmem2
          exact hnone p hp ⟨congrArg Prod.fst hpc, congrArg Prod.snd hpc⟩
        · rw [Multiset.coe_nodup]
          exact hnd
      · intro h
        simp at h
  · simp only [of_decide_eq_true hpool, if_true]
    simp

/-- Adding a point at an occupied coordinate refreshes that point in place:
the call succeeds, the stored list is the pointwise refresh image, and the
invariant is preserved. -/
theorem sonar_chart_add_point_existing {chart : SonarChart} {x y : Int}
    {is_terrain : Bool} {tick : Nat} {p : SonarPoint}
    (hinv : sonar_inv chart = true) (hp : p ∈ sonar_stored chart.root)
    (hx : p.world_x = x) (hy : p.world_y = y) :
    sonar_chart_add_point chart x y is_terrain tick =
      ({ chart with root := (sonar_tree_update_point chart.root x y
          (sonar_point_refresh is_terrain tick)) }, true) ∧
    sonar_inv (sonar_chart_add_point chart x y is_terrain tick).1 = true ∧
    sonar_stored (sonar_chart_add_point chart x y is_terrain tick).1.root =
      (sonar_stored chart.root).map fun q =>
        if q.world_x = x ∧ q.world_y = y then
          sonar_point_refresh is_terrain tick q else q := by
  obtain ⟨hwf, hnd⟩ := by
    have := hinv
    simp only [sonar_inv, Bool.and_eq_true, decide_eq_true_eq] at this
    exact this
  have hqp := sonar_chart_query_point_found hinv hp hx hy
  have hco : ∀ q, (sonar_point_refresh is_terrain tick q).world_x = q.world_x ∧
      (sonar_point_refresh is_terrain tick q).world_y = q.world_y :=
    fun q => ⟨rfl, rfl⟩
  have heq : sonar_chart_add_point chart x y is_terrain tick =
      ({ chart with root := (sonar_tree_update_point chart.root x y
          (sonar_point_refresh is_terrain tick)) }, true) := by
    unfold sonar_chart_add_point
    rw [hqp]
  refine ⟨heq, ?_, ?_⟩
  · rw [heq]
    simp only [sonar_inv, Bool.and_eq_true, decide_eq_true_eq]
    constructor
    · exact sonar_tree_update_point_wf x y hco chart.root hwf
    · unfold sonar_coords
      rw [sonar_tree_update_point_stored]
      rw [List.map_map]
      have hfun : ((fun p => (p.world_x, p.world_y)) ∘ fun q =>
          if q.world_x = x ∧ q.world_y = y then
            sonar_point_refresh is_terrain tick q else q) =
          fun q : SonarPoint => (q.world_x, q.world_y) := by
        funext q
        by_cases hcase : q.world_x = x ∧ q.world_y = y
        · simp [hcase, sonar_point_refresh]
        · simp [hcase]
      rw [hfun]
      exact hnd
  · rw [heq]
    exact sonar_tree_update_point_stored x y _ chart.root

/-- The chart component of the insertion fold ignores the incoming flag, and
the flag is the conjunction over the batch. -/
theorem sonar_chart_add_points_flag :
    ∀ (inputs : List (Int × Int × Bool × Nat)) (chart : SonarChart) (flag : Bool),
      inputs.foldl
        (fun acc q =>
          let r := sonar_chart_add_point acc.1 q.1 q.2.1 q.2.2.1 q.2.2.2
          (r.1, acc.2 && r.2))
        (chart, flag) =
      ((inputs.foldl
        (fun acc q =>
          let r := sonar_chart_add_point acc.1 q.1 q.2.1 q.2.2.1 q.2.2.2
          (r.1, acc.2 && r.2))
        (chart, true)).1,
       flag && (inputs.foldl
        (fun acc q =>
          let r := sonar_chart_add_point acc.1 q.1 q.2.1 q.2.2.1 q.2.2.2
          (r.1, acc.2 && r.2))
        (chart, true)).2) := by
  intro inputs
  induction inputs with
  | nil => intro chart flag; simp
  | cons q rest ih =>
    intro chart flag
    simp only [List.foldl_cons]
    rw [ih _ (flag && (sonar_chart_add_point chart q.1 q.2.1 q.2.2.1 q.2.2.2).2),
      ih _ (true && (sonar_chart_add_point chart q.1 q.2.1 q.2.2.1 q.2.2.2).2)]
    simp [Bool.and_assoc]

/-- Batch-insertion spec: inserting a batch of fresh, pairwise-distinct
coordinates that all succeed preserves the invariant and adds exactly the
batch coordinates to the stored coordinate multiset. -/
theorem sonar_chart_add_points_spec :
    ∀ (inputs : List (Int × Int × Bool × Nat)) (chart : SonarChart),
      sonar_inv chart = true →
      (∀ q ∈ inputs, ∀ p ∈ sonar_stored chart.root,
        ¬(p.world_x = q.1 ∧ p.world_y = q.2.1)) →
      (inputs.map fun q => (q.1, q.2.1)).Nodup →
      (sonar_chart_add_points chart inputs).2 = true →
      sonar_inv (sonar_chart_add_points chart inputs).1 = true ∧
      ((sonar_coords (sonar_chart_add_points chart inputs).1.root :
          Multiset (Int × Int)) =
        ↑(inputs.map fun q => (q.1, q.2.1)) + ↑(sonar_coords chart.root)) := by
  intro inputs
  induction inputs with
  | nil =>
    intro chart hinv _ _ _
    exact ⟨hinv, by simp [sonar_chart_add_points]⟩
  | cons q rest ih =>
    intro chart hinv hfresh hnd hsucc
    unfold sonar_chart_add_points at hsucc ⊢
    simp only [List.foldl_cons] at hsucc ⊢
    rw [sonar_chart_add_points_flag] at hsucc ⊢
    simp only [Bool.true_and] at hsucc ⊢
    rcases hq : (sonar_chart_add_point chart q.1 q.2.1 q.2.2.1 q.2.2.2).2 with _ | _
    · rw [hq] at hsucc
      simp at hsucc
    · have hnone : ∀ p ∈ sonar_stored chart.root,
          ¬(p.world_x = q.1 ∧ p.world_y = q.2.1) :=
        hfresh q (List.mem_cons_self q rest)
      obtain ⟨hnew, _⟩ := @sonar_chart_add_point_new chart q.1 q.2.1
        q.2.2.1 q.2.2.2 hinv hnone
      obtain ⟨hinv2, hms2, _⟩ := hnew hq
      rw [hq] at hsucc
      simp only [Bool.true_and] at hsucc
      have hcoords2 : (↑(sonar_coords
          (sonar_chart_add_point chart q.1 q.2.1 q.2.2.1 q.2.2.2).1.root) :
          Multiset (Int × Int)) =
          (q.1, q.2.1) ::ₘ ↑(sonar_coords chart.root) := by
        unfold sonar_coords
        have hmap : ((sonar_stored
            (sonar_chart_add_point chart q.1 q.2.1 q.2.2.1 q.2.2.2).1.root :
            List SonarPoint) : Multiset SonarPoint).map
            (fun p => (p.world_x, p.world_y)) =
            (((⟨q.1, q.2.1, q.2.2.2 % 4294967296, SONAR_FADE_FULL, q.2.2.1⟩ :
              SonarPoint) ::ₘ ↑(sonar_stored chart.root)).map
              (fun p => (p.world_x, p.world_y))) := by rw [hms2]
        rw [Multiset.map_cons] at hmap
        exact hmap
      have hfresh2 : ∀ q2 ∈ rest, ∀ p ∈ sonar_stored
          (sonar_chart_add_point chart q.1 q.2.1 q.2.2.1 q.2.2.2).1.root,
          ¬(p.world_x = q2.1 ∧ p.world_y = q2.2.1) := by
        intro q2 hq2 p hp hco
        have hmc : (p.world_x, p.world_y) ∈ (↑(sonar_coords
            (sonar_chart_add_point chart q.1 q.2.1 q.2.2.1 q.2.2.2).1.root) :
            Multiset (Int × Int)) := by
          rw [Multiset.mem_coe]
          exact List.mem_map.2 ⟨p, hp, rfl⟩
        rw [hcoords2, Multiset.mem_cons] at hmc
        rcases hmc with hmc | hmc
        · have : (q2.1, q2.2.1) = (q.1, q.2.1) := by
            rw [← hco.1, ← hco.2]; exact hmc
          simp only [List.map_cons, List.nodup_cons] at hnd
          exact hnd.1 (this ▸ List.mem_map.2 ⟨q2, hq2, rfl⟩)
        · rw [Multiset.mem_coe] at hmc
          obtain ⟨p2, hp2, hpc2⟩ := List.mem_map.1 hmc
          refine hfresh q2 (List.mem_cons_of_mem q hq2) p2 hp2 ⟨?_, ?_⟩
          · rw [← hco.1]; exact (congrArg Prod.fst hpc2)
          · rw [← hco.2]; exact (congrArg Prod.snd hpc2)
      have hnd2 : (rest.map fun q2 => (q2.1, q2.2.1)).Nodup := by
        simp only [List.map_cons, List.nodup_cons] at hnd
        exact hnd.2
      have hrest := ih (sonar_chart_add_point chart q.1 q.2.1 q.2.2.1 q.2.2.2).1
        hinv2 hfresh2 hnd2 (by
          unfold sonar_chart_add_points
          exact hsucc)
      unfold sonar_chart_add_points at hrest
      refine ⟨hrest.1, ?_⟩
      rw [hrest.2, hcoords2]
      rw [show ((q :: rest).map fun q2 => (q2.1, q2.2.1)) =
        [(q.1, q.2.1)] ++ (rest.map fun q2 => (q2.1, q2.2.1)) from rfl]
      rw [← Multiset.coe_add]
      simp only [Multiset.coe_singleton, ← Multiset.singleton_add]
      abel

/-- C1: No point loss.  For every sequence of insertions via
sonar_chart_add_point at pairwise-distinct coordinates, each returning true,
a subsequent sonar_chart_query_area over a window containing all the
coordinates, with a result buffer of capacity at least the number of
insertions, returns exactly that many points — whether or not any quadtree
subdivision occurred during the insertions. -/
theorem sonar_chart_no_point_loss
    (inputs : List (Int × Int × Bool × Nat)) (window : SonarBounds)
    (max_points : Nat)
    (hdist : (inputs.map fun q => (q.1, q.2.1)).Nodup)
    (hsucc : (sonar_chart_add_points sonar_chart_alloc inputs).2 = true)
    (hwin : ∀ q ∈ inputs, sonar_bounds_contains_point window q.1 q.2.1 = true)
    (hmax : inputs.length ≤ max_points) :
    (sonar_chart_query_area (sonar_chart_add_points sonar_chart_alloc inputs).1
      window max_points).length = inputs.length := by
  have hinv0 : sonar_inv sonar_chart_alloc = true := by decide
  have hfresh : ∀ q ∈ inputs, ∀ p ∈ sonar_stored sonar_chart_alloc.root,
      ¬(p.world_x = q.1 ∧ p.world_y = q.2.1) := by
    intro q hq p hp
    simp [sonar_chart_alloc, sonar_stored] at hp
  obtain ⟨hinvF, hcoF⟩ :=
    sonar_chart_add_points_spec inputs sonar_chart_alloc hinv0 hfresh hdist hsucc
  obtain ⟨hwfF, hndF⟩ := by
    have := hinvF
    simp only [sonar_inv, Bool.and_eq_true, decide_eq_true_eq] at this
    exact this
  have hcoalloc : sonar_coords sonar_chart_alloc.root = [] := rfl
  rw [hcoalloc] at hcoF
  have hall : ∀ p ∈ sonar_stored
      (sonar_chart_add_points sonar_chart_alloc inputs).1.root,
      sonar_bounds_contains_point window p.world_x p.world_y = true := by
    intro p hp
    have hmc : (p.world_x, p.world_y) ∈ (↑(sonar_coords
        (sonar_chart_add_points sonar_chart_alloc inputs).1.root) :
        Multiset (Int × Int)) := by
      rw [Multiset.mem_coe]
      exact List.mem_map.2 ⟨p, hp, rfl⟩
    rw [hcoF] at hmc
    simp only [Multiset.coe_nil, add_zero, Multiset.mem_coe] at hmc
    obtain ⟨q, hq, hqc⟩ := List.mem_map.1 hmc
    have h1 : p.world_x = q.1 := (congrArg Prod.fst hqc).symm
    have h2 : p.world_y = q.2.1 := (congrArg Prod.snd hqc).symm
    rw [h1, h2]
    exact hwin q hq
  have hfilter : ((sonar_stored
      (sonar_chart_add_points sonar_chart_alloc inputs).1.root).filter fun p =>
        sonar_bounds_contains_point window p.world_x p.world_y) =
      sonar_stored (sonar_chart_add_points sonar_chart_alloc inputs).1.root :=
    List.filter_eq_self.2 hall
  have hlenF : (sonar_stored
      (sonar_chart_add_points sonar_chart_alloc inputs).1.root).length =
      inputs.length := by
    have hcard := congrArg Multiset.card hcoF
    simp only [Multiset.coe_nil, add_zero, Multiset.coe_card] at hcard
    unfold sonar_coords at hcard
    simpa using hcard
  obtain ⟨e, _⟩ := sonar_quad_query_spec window max_points
    (sonar_chart_add_points sonar_chart_alloc inputs).1.root [] hwfF
    (by rw [hfilter]; simpa [hlenF] using hmax)
  unfold sonar_chart_query_area
  rw [e, hfilter]
  simpa using hlenF

/-- Witness for C1 at a concrete two-point batch. -/
theorem sonar_chart_no_point_loss_witness :
    ((sonar_small_inputs.map fun q => (q.1, q.2.1)).Nodup ∧
     (sonar_chart_add_points sonar_chart_alloc sonar_small_inputs).2 = true ∧
     (∀ q ∈ sonar_small_inputs,
       sonar_bounds_contains_point (sonar_bounds_create 0 0 10 10) q.1 q.2.1 = true) ∧
     sonar_small_inputs.length ≤ 2) ∧
    (sonar_chart_query_area
      (sonar_chart_add_points sonar_chart_alloc sonar_small_inputs).1
      (sonar_bounds_create 0 0 10 10) 2).length = sonar_small_inputs.length :=
  ⟨⟨by decide, by decide, by decide, by decide⟩,
    sonar_chart_no_point_loss sonar_small_inputs (sonar_bounds_create 0 0 10 10)
      2 (by decide) (by decide) (by decide) (by decide)⟩

/-- A successful sonar_chart_query_point answer is a stored point at exactly
the queried coordinate. -/
theorem sonar_chart_query_point_inv {chart : SonarChart} {x y : Int}
    {p : SonarPoint} (hinv : sonar_inv chart = true)
    (h : sonar_chart_query_point chart x y = some p) :
    p ∈ sonar_stored chart.root ∧ p.world_x = x ∧ p.world_y = y := by
  by_cases hex : ∃ p2 ∈ sonar_stored chart.root, p2.world_x = x ∧ p2.world_y = y
  · obtain ⟨p2, hp2, hc2⟩ := hex
    have hq := sonar_chart_query_point_found hinv hp2 hc2.1 hc2.2
    rw [hq] at h
    rcases Option.some.inj h with rfl
    exact ⟨hp2, hc2⟩
  · push_neg at hex
    have hq := sonar_chart_query_point_none hinv (fun p2 hp2 hc =>
      hex p2 hp2 hc.1 hc.2)
    rw [hq] at h
    cases h

/-- C6: Sticky terrain.  A later water observation at a coordinate holding a
terrain point leaves the stored point classified as terrain and refreshes its
discovery timestamp; a terrain observation at a coordinate holding a water
point reclassifies it as terrain. -/
theorem sonar_chart_sticky_terrain (chart : SonarChart) (x y : Int) (tick : Nat)
    (hinv : sonar_inv chart = true) :
    (∀ p : SonarPoint, sonar_chart_query_point chart x y = some p →
      p.is_terrain = true →
      ∃ q : SonarPoint, sonar_chart_query_point
          (sonar_chart_add_point chart x y false tick).1 x y = some q ∧
        q.is_terrain = true ∧ q.discovery_time = tick % 4294967296) ∧
    (∀ p : SonarPoint, sonar_chart_query_point chart x y = some p →
      p.is_terrain = false →
      ∃ q : SonarPoint, sonar_chart_query_point
          (sonar_chart_add_point chart x y true tick).1 x y = some q ∧
        q.is_terrain = true ∧ q.discovery_time = tick % 4294967296) := by
  constructor
  · intro p hqp hterr
    obtain ⟨hp, hx, hy⟩ := sonar_chart_query_point_inv hinv hqp
    obtain ⟨heq, hinv2, hst2⟩ :=
      @sonar_chart_add_point_existing chart x y false tick p
        hinv hp hx hy
    refine ⟨sonar_point_refresh false tick p, ?_, ?_, rfl⟩
    · have hmem2 : sonar_point_refresh false tick p ∈ sonar_stored
          (sonar_chart_add_point chart x y false tick).1.root := by
        rw [hst2]
        refine List.mem_map.2 ⟨p, hp, ?_⟩
        rw [if_pos ⟨hx, hy⟩]
      exact sonar_chart_query_point_found hinv2 hmem2 hx hy
    · simp [sonar_point_refresh, hterr]
  · intro p hqp hterr
    obtain ⟨hp, hx, hy⟩ := sonar_chart_query_point_inv hinv hqp
    obtain ⟨heq, hinv2, hst2⟩ :=
      @sonar_chart_add_point_existing chart x y true tick p
        hinv hp hx hy
    refine ⟨sonar_point_refresh true tick p, ?_, ?_, rfl⟩
    · have hmem2 : sonar_point_refresh true tick p ∈ sonar_stored
          (sonar_chart_add_point chart x y true tick).1.root := by
        rw [hst2]
        refine List.mem_map.2 ⟨p, hp, ?_⟩
        rw [if_pos ⟨hx, hy⟩]
      exact sonar_chart_query_point_found hinv2 hmem2 hx hy
    · simp [sonar_point_refresh]

/-- Witness for C6 at two concrete one-point charts. -/
theorem sonar_chart_sticky_terrain_witness :
    (sonar_inv sonar_terrain_chart = true ∧
     sonar_chart_query_point sonar_terrain_chart 5 5 =
       some ⟨5, 5, 100, SONAR_FADE_FULL, true⟩ ∧
     ∃ q : SonarPoint, sonar_chart_query_point
         (sonar_chart_add_point sonar_terrain_chart 5 5 false 70000).1 5 5 =
           some q ∧
       q.is_terrain = true ∧ q.discovery_time = 70000 % 4294967296) ∧
    (sonar_inv sonar_water_chart = true ∧
     sonar_chart_query_point sonar_water_chart 6 6 =
       some ⟨6, 6, 100, SONAR_FADE_FULL, false⟩ ∧
     ∃ q : SonarPoint, sonar_chart_query_point
         (sonar_chart_add_point sonar_water_chart 6 6 true 70000).1 6 6 =
           some q ∧
       q.is_terrain = true ∧ q.discovery_time = 70000 % 4294967296) :=
  ⟨⟨by decide, by decide,
    (sonar_chart_sticky_terrain sonar_terrain_chart 5 5 70000 (by decide)).1
      ⟨5, 5, 100, SONAR_FADE_FULL, true⟩ (by decide) rfl⟩,
   ⟨by decide, by decide,
    (sonar_chart_sticky_terrain sonar_water_chart 6 6 70000 (by decide)).2
      ⟨6, 6, 100, SONAR_FADE_FULL, false⟩ (by decide) rfl⟩⟩

/-- The fade compaction of one leaf list is a filter of the survivors with
their fade state refreshed. -/
theorem sonar_filterMap_fade (t : Nat) :
    ∀ pts : List SonarPoint,
      (pts.filterMap fun p =>
        let state := sonar_chart_get_fade_state p t
        if SONAR_FADE_GONE ≤ state then none
        else some { p with fade_state := state }) =
      ((pts.filter fun p =>
        decide (sonar_chart_get_fade_state p t < SONAR_FADE_GONE)).map
        fun p => { p with fade_state := sonar_chart_get_fade_state p t }) := by
  intro pts
  induction pts with
  | nil => rfl
  | cons p rest ih =>
    simp only [List.filterMap_cons, List.filter_cons]
    by_cases h : SONAR_FADE_GONE ≤ sonar_chart_get_fade_state p t
    · rw [if_pos h]
      have hdec : decide (sonar_chart_get_fade_state p t < SONAR_FADE_GONE) = false := by
        simp; omega
      simp only [hdec, Bool.false_eq_true, if_false]
      exact ih
    · rw [if_neg h]
      have hdec : decide (sonar_chart_get_fade_state p t < SONAR_FADE_GONE) = true := by
        simp; omega
      simp only [hdec, if_true, List.map_cons]
      rw [ih]

/-- Cleanup compacts exactly the leaf lists and leaves internal own lists
untouched. -/
theorem sonar_quad_cleanup_faded_stored (t : Nat) :
    ∀ node : SonarQuadNode,
      sonar_leaf_stored (sonar_quad_cleanup_faded node t).1 =
        ((sonar_leaf_stored node).filter fun p =>
          decide (sonar_chart_get_fade_state p t < SONAR_FADE_GONE)).map
          (fun p => { p with fade_state := sonar_chart_get_fade_state p t }) ∧
      sonar_internal_stored (sonar_quad_cleanup_faded node t).1 =
        sonar_internal_stored node := by
  intro node
  induction node with
  | leaf b pts d =>
    constructor
    · simp only [sonar_quad_cleanup_faded, sonar_leaf_stored]
      exact sonar_filterMap_fade t pts
    · simp [sonar_quad_cleanup_faded, sonar_internal_stored]
  | internal b pts d c0 c1 c2 c3 ih0 ih1 ih2 ih3 =>
    constructor
    · simp only [sonar_quad_cleanup_faded, sonar_leaf_stored]
      rw [ih0.1, ih1.1, ih2.1, ih3.1]
      simp [List.filter_append, List.map_append]
    · simp only [sonar_quad_cleanup_faded, sonar_internal_stored]
      rw [ih0.2, ih1.2, ih2.2, ih3.2]

/-- C7 amended: the fade stage computed by sonar_chart_get_fade_state is
non-decreasing in current_time for times at or after the discovery time
(within the uint32 range); and a non-throttled sonar_chart_update_fade call
removes exactly the leaf-stored points whose fade stage reached
SONAR_FADE_GONE (refreshing the others' fade state), while the points
force-retained on internal nodes are left untouched by the cleanup. -/
theorem sonar_fade_monotone_and_cleanup :
    (∀ (p : SonarPoint) (t1 t2 : Nat),
      p.discovery_time ≤ t1 → t1 ≤ t2 → t2 < 4294967296 →
      sonar_chart_get_fade_state p t1 ≤ sonar_chart_get_fade_state p t2) ∧
    (∀ (chart : SonarChart) (t : Nat),
      ¬(u32_sub t chart.last_fade_update < 1000) →
      sonar_leaf_stored (sonar_chart_update_fade chart t).root =
        ((sonar_leaf_stored chart.root).filter fun p =>
          decide (sonar_chart_get_fade_state p t < SONAR_FADE_GONE)).map
          (fun p => { p with fade_state := sonar_chart_get_fade_state p t }) ∧
      sonar_internal_stored (sonar_chart_update_fade chart t).root =
        sonar_internal_stored chart.root) := by
  constructor
  · intro p t1 t2 h1 h12 h2
    unfold sonar_chart_get_fade_state
    have e1 : u32_sub t1 p.discovery_time = t1 - p.discovery_time := by
      unfold u32_sub
      omega
    have e2 : u32_sub t2 p.discovery_time = t2 - p.discovery_time := by
      unfold u32_sub
      omega
    rw [e1, e2]
    have hdiv : (t1 - p.discovery_time) / SONAR_FADE_DURATION_MS ≤
        (t2 - p.discovery_time) / SONAR_FADE_DURATION_MS :=
      Nat.div_le_div_right (by omega)
    simp only [SONAR_FADE_STAGES, SONAR_FADE_GONE]
    split_ifs <;> omega
  · intro chart t hth
    unfold sonar_chart_update_fade
    rw [if_neg hth]
    exact sonar_quad_cleanup_faded_stored t chart.root

/-- Witness for C7 as amended, at a concrete point and at the demo chart. -/
theorem sonar_fade_witness :
    ((⟨0, 0, 1000, 0, true⟩ : SonarPoint).discovery_time ≤ 20000 ∧
      20000 ≤ 40000 ∧ 40000 < 4294967296 ∧
      sonar_chart_get_fade_state ⟨0, 0, 1000, 0, true⟩ 20000 ≤
        sonar_chart_get_fade_state ⟨0, 0, 1000, 0, true⟩ 40000) ∧
    (¬(u32_sub 100000 sonar_demo_chart.last_fade_update < 1000) ∧
      sonar_leaf_stored (sonar_chart_update_fade sonar_demo_chart 100000).root =
        ((sonar_leaf_stored sonar_demo_chart.root).filter fun p =>
          decide (sonar_chart_get_fade_state p 100000 < SONAR_FADE_GONE)).map
          (fun p => { p with fade_state := sonar_chart_get_fade_state p 100000 })) :=
  ⟨⟨by decide, by decide, by decide,
    sonar_fade_monotone_and_cleanup.1 ⟨0, 0, 1000, 0, true⟩ 20000 40000
      (by decide) (by decide) (by decide)⟩,
   ⟨by decide,
    (sonar_fade_monotone_and_cleanup.2 sonar_demo_chart 100000 (by decide)).1⟩⟩

/-- Counterexample to C7 as stated: in the demo chart the ninth point was
force-retained on an internal node; after sonar_chart_update_fade runs at a
time when every point's age far exceeds the fade horizon, that point still
appears in a query result. -/
theorem sonar_fade_counterexample :
    ¬(u32_sub 100000 sonar_demo_chart.last_fade_update < 1000) ∧
    ¬(∀ p ∈ sonar_chart_query_area
        (sonar_chart_update_fade sonar_demo_chart 100000)
        (sonar_bounds_create (-32768) (-32768) 32767 32767) 512,
      sonar_chart_get_fade_state p 100000 < SONAR_FADE_GONE) := by
  constructor
  · decide
  · decide

/-- C2 amended: the four children of every internal node built by
sonar_quad_subdivide cover the parent bounds, but because each child's bounds
include the shared midlines (the same mid_x and mid_y appear as a max in one
child and as a min in its neighbour), a coordinate inside the parent is
contained in exactly one child precisely when it avoids both midlines;
coordinates on a midline belong to two or four children. -/
theorem sonar_quad_child_partition (n : SonarQuadNode) (x y : Int)
    (hwf : sonar_wf n = true) (hleaf : n.is_leaf = false)
    (hc : sonar_bounds_contains_point n.bounds x y = true) :
    1 ≤ sonar_children_containing n x y ∧
    (sonar_children_containing n x y = 1 ↔
      x ≠ (n.bounds.min_x + n.bounds.max_x).tdiv 2 ∧
      y ≠ (n.bounds.min_y + n.bounds.max_y).tdiv 2) := by
  cases n with
  | leaf b pts d => simp [SonarQuadNode.is_leaf] at hleaf
  | internal b pts d c0 c1 c2 c3 =>
    rw [sonar_wf_internal_iff] at hwf
    obtain ⟨hs, -, -, hb0, hb1, hb2, hb3, -⟩ := hwf
    simp only [sonar_bounds_sane, Bool.and_eq_true, decide_eq_true_eq] at hs
    have hx := sonar_tdiv2_between hs.1
    have hy := sonar_tdiv2_between hs.2
    rw [SonarQuadNode.bounds_internal] at hc
    rw [sonar_contains_iff] at hc
    simp only [sonar_children_containing, SonarQuadNode.bounds_internal,
      hb0, hb1, hb2, hb3, sonar_quad_child_bounds, sonar_bounds_create,
      sonar_contains_iff]
    split_ifs <;> omega

/-- Witness for C2 as amended, on the internal node produced by subdividing
the demo square leaf; the coordinate 0,0 avoids both midlines. -/
theorem sonar_quad_child_partition_witness :
    sonar_wf (sonar_quad_subdivide SONAR_INSERT_FUEL 100 sonar_square_leaf).2 = true ∧
    (sonar_quad_subdivide SONAR_INSERT_FUEL 100 sonar_square_leaf).2.is_leaf = false ∧
    sonar_bounds_contains_point
      (sonar_quad_subdivide SONAR_INSERT_FUEL 100 sonar_square_leaf).2.bounds 0 0 = true ∧
    (1 ≤ sonar_children_containing
        (sonar_quad_subdivide SONAR_INSERT_FUEL 100 sonar_square_leaf).2 0 0 ∧
      (sonar_children_containing
          (sonar_quad_subdivide SONAR_INSERT_FUEL 100 sonar_square_leaf).2 0 0 = 1 ↔
        0 ≠ ((sonar_quad_subdivide SONAR_INSERT_FUEL 100 sonar_square_leaf).2.bounds.min_x +
          (sonar_quad_subdivide SONAR_INSERT_FUEL 100 sonar_square_leaf).2.bounds.max_x).tdiv 2 ∧
        0 ≠ ((sonar_quad_subdivide SONAR_INSERT_FUEL 100 sonar_square_leaf).2.bounds.min_y +
          (sonar_quad_subdivide SONAR_INSERT_FUEL 100 sonar_square_leaf).2.bounds.max_y).tdiv 2)) :=
  ⟨by decide, by decide, by decide,
   sonar_quad_child_partition (sonar_quad_subdivide SONAR_INSERT_FUEL 100 sonar_square_leaf).2
     0 0 (by decide) (by decide) (by decide)⟩

/-- Counterexample to C2 as stated: subdividing the square leaf with corners
0,0 and 2,2 yields four children that all contain the midpoint 1,1 — a
coordinate inside the parent contained in four children, not exactly one. -/
theorem sonar_quad_child_overlap_counterexample :
    (sonar_quad_subdivide SONAR_INSERT_FUEL 100 sonar_square_leaf).2.is_leaf = false ∧
    sonar_bounds_contains_point sonar_square_leaf.bounds 1 1 = true ∧
    sonar_children_containing
      (sonar_quad_subdivide SONAR_INSERT_FUEL 100 sonar_square_leaf).2 1 1 = 4 := by
  refine ⟨by decide, by decide, by decide⟩

/-- C3: inserting a ninth point into a full leaf whose subdivision cannot
proceed does NOT retain the point. With the leaf at the depth cap (or the
node arena exhausted) sonar_quad_subdivide returns without changing the node,
and the force-insert guard inside sonar_quad_insert re-tests the very
capacity condition that is known false on this path, so the point is dropped
and the insert reports failure with the leaf unchanged — contradicting the
claimed forced retention. -/
theorem sonar_quad_insert_drops_on_failed_subdivision :
    sonar_quad_insert SONAR_INSERT_FUEL 100 sonar_full_leaf sonar_ninth_point =
      (100, sonar_full_leaf, false) ∧
    sonar_quad_insert SONAR_INSERT_FUEL 0
      (.leaf (sonar_bounds_create 0 0 1023 1023) sonar_full_leaf.points 0)
      sonar_ninth_point =
      (0, .leaf (sonar_bounds_create 0 0 1023 1023) sonar_full_leaf.points 0,
        false) := by
  refine ⟨by decide, by decide⟩

/-- C4 amended: the ray from 64,32 in direction dx 1000, dy 0 with max
distance 4 against the demo collision block hits at x = 65, y = 32, but the
reported distance is 2, not 1: raycaster_bresham_step emits the start cell as
its first output, so step_count is already 1 at the origin and reaches 2 when
the collision cell 65,32 is first visited. -/
theorem raycaster_cast_ray_demo :
    raycaster_cast_ray 64 32 { dx := 1000, dy := 0, angle_id := 0 } 4
      raycaster_demo_collision =
      (true, { hit_x := 65, hit_y := 32, distance := 2,
               hit_terrain := true, ray_complete := true }) := by
  decide

/-- Counterexample to C4 as stated: the reported distance of that cast is not
1. -/
theorem raycaster_cast_ray_distance_counterexample :
    ¬((raycaster_cast_ray 64 32 { dx := 1000, dy := 0, angle_id := 0 } 4
        raycaster_demo_collision).2.distance = 1) := by
  decide

/-- Every cast ray is reported complete, on both the hit and the miss path. -/
theorem raycaster_cast_ray_complete (sx sy : Int) (dir : RayDirection)
    (md : Nat) (c : Int → Int → Bool) :
    (raycaster_cast_ray sx sy dir md c).2.ray_complete = true := by
  unfold raycaster_cast_ray
  simp only [apply_ite Prod.snd, apply_ite RayResult.ray_complete, ite_self]

/-- The pattern loop appends, in order, the full cast of every remaining
direction, independently of the quality level. -/
theorem raycaster_cast_pattern_loop_spec (q md : Nat) (sx sy : Int)
    (c : Int → Int → Bool) :
    ∀ (dirs : List RayDirection) (i : Nat) (results : List RayResult)
      (hits : Nat),
      (raycaster_cast_pattern_loop q md sx sy c dirs i results hits).1 =
        results ++ dirs.map
          (fun dir => (raycaster_cast_ray sx sy dir md c).2) := by
  intro dirs
  induction dirs with
  | nil =>
    intro i results hits
    simp [raycaster_cast_pattern_loop]
  | cons dir rest ih =>
    intro i results hits
    simp only [raycaster_cast_pattern_loop, List.map_cons]
    rw [ih]
    simp

/-- C5 amended: the adaptive-quality check of raycaster_cast_pattern is a
lone continue statement at the end of the loop body, so it skips nothing.
For every quality level, every result slot is filled with the full cast of
its direction at the pattern's max radius (one slot per direction, all marked
complete); a slot at an index not aligned with the quality stride holds
whatever that full cast produced — a hit when the ray hits — and not a
guaranteed non-hit at the max radius. -/
theorem raycaster_cast_pattern_fills_all (quality : Nat) (pattern : RayPattern)
    (sx sy : Int) (c : Int → Int → Bool) :
    (raycaster_cast_pattern quality pattern sx sy c).1 =
      pattern.directions.map
        (fun dir => (raycaster_cast_ray sx sy dir pattern.max_radius c).2) ∧
    (raycaster_cast_pattern quality pattern sx sy c).1.length =
      pattern.directions.length ∧
    ((raycaster_cast_pattern quality pattern sx sy c).1.all
      fun r => r.ray_complete) = true := by
  have h := raycaster_cast_pattern_loop_spec quality pattern.max_radius sx sy c
    pattern.directions 0 [] 0
  unfold raycaster_cast_pattern
  rw [h]
  refine ⟨by simp, by simp, ?_⟩
  simp only [List.nil_append, List.all_eq_true, List.mem_map]
  rintro r ⟨dir, -, rfl⟩
  exact raycaster_cast_ray_complete sx sy dir pattern.max_radius c

/-- Counterexample to C5 as stated: with quality level 1 the slot at the
unaligned index 1 of the demo pattern holds a hit at distance 2, not a
complete non-hit at the pattern's max radius 4. -/
theorem raycaster_cast_pattern_quality_counterexample :
    (raycaster_cast_pattern 1 raycaster_demo_pattern 64 32
        raycaster_demo_collision).1 =
      [{ hit_x := 65, hit_y := 32, distance := 2, hit_terrain := true,
         ray_complete := true },
       { hit_x := 65, hit_y := 32, distance := 2, hit_terrain := true,
         ray_complete := true }] ∧
    (((raycaster_cast_pattern 1 raycaster_demo_pattern 64 32
        raycaster_demo_collision).1.drop 1).all
      fun r => !r.hit_terrain &&
        decide (r.distance = raycaster_demo_pattern.max_radius)) = false := by
  refine ⟨by decide, by decide⟩

/-- C8: terrain generation is deterministic in the tile seed: whatever the
incoming state of the file-scoped random generator, terrain_init_corners
reseeds it from the tile seed before any draw, so two allocations with the
same seed and elevation threshold produce identical height maps and identical
collision maps. -/
theorem terrain_manager_alloc_deterministic (rng1 rng2 seed elevation : Nat) :
    (terrain_manager_alloc rng1 seed elevation).1.height_map =
      (terrain_manager_alloc rng2 seed elevation).1.height_map ∧
    (terrain_manager_alloc rng1 seed elevation).1.collision_map =
      (terrain_manager_alloc rng2 seed elevation).1.collision_map :=
  ⟨rfl, rfl⟩

/-- C9: a world coordinate whose tile is outside the active 2x2 window (the
index lookup returns the sentinel -1) reports no collision rather than an
error. -/
theorem chunk_manager_inactive_no_collision (m : ChunkManager) (wx wy : Int)
    (h : chunk_manager_get_active_index m (world_to_chunk_coord wx wy) = -1) :
    chunk_manager_check_collision m wx wy = false := by
  have hnone : chunk_manager_get_chunk_at m wx wy = none := by
    simp only [chunk_manager_get_chunk_at]
    rw [h]
    norm_num
  simp only [chunk_manager_check_collision, hnone]

/-- Witness for C9 on the manager updated at world 64,32: the probe 1000,32
lies outside the newly active window and reports false. -/
theorem chunk_manager_inactive_no_collision_witness :
    chunk_manager_get_active_index chunk_demo_manager
      (world_to_chunk_coord 1000 32) = -1 ∧
    chunk_manager_check_collision chunk_demo_manager 1000 32 = false :=
  ⟨by decide,
   chunk_manager_inactive_no_collision chunk_demo_manager 1000 32 (by decide)⟩

/-- An update whose position stays in the centre tile only records the player
position. -/
theorem chunk_manager_update_same_center (m : ChunkManager) (px py : Int)
    (h : world_to_chunk_coord px py = m.center_chunk) :
    chunk_manager_update m px py =
      { m with player_world_x := px, player_world_y := py } := by
  unfold chunk_manager_update
  have he : chunk_coord_equals (world_to_chunk_coord px py)
      ({ m with player_world_x := px, player_world_y := py } :
        ChunkManager).center_chunk = true := by
    simp [chunk_coord_equals, h]
  simp only [he, if_true]

/-- A sequence of updates that never leaves the centre tile changes nothing
but the player position. -/
theorem chunk_manager_update_seq_same_center (ps : List (Int × Int)) :
    ∀ m : ChunkManager,
      (∀ p ∈ ps, world_to_chunk_coord p.1 p.2 = m.center_chunk) →
      (chunk_manager_update_seq m ps).active_chunks = m.active_chunks ∧
      (chunk_manager_update_seq m ps).center_chunk = m.center_chunk ∧
      (chunk_manager_update_seq m ps).poolFree = m.poolFree ∧
      (chunk_manager_update_seq m ps).rng = m.rng := by
  induction ps with
  | nil =>
    intro m _
    exact ⟨rfl, rfl, rfl, rfl⟩
  | cons p rest ih =>
    intro m h
    have h0 := h p (List.mem_cons_self p rest)
    have hstep := chunk_manager_update_same_center m p.1 p.2 h0
    have hrest : ∀ q ∈ rest,
        world_to_chunk_coord q.1 q.2 =
          ({ m with player_world_x := p.1, player_world_y := p.2 } :
            ChunkManager).center_chunk := by
      intro q hq
      exact h q (List.mem_cons_of_mem p hq)
    have := ih { m with player_world_x := p.1, player_world_y := p.2 } hrest
    unfold chunk_manager_update_seq at this ⊢
    rw [List.foldl_cons, hstep]
    exact this

/-- With an empty active window every collision probe reports false. -/
theorem chunk_manager_check_collision_empty (m : ChunkManager)
    (h : m.active_chunks = [none, none, none, none]) (wx wy : Int) :
    chunk_manager_check_collision m wx wy = false := by
  have hget : ∀ n : Nat,
      ([none, none, none, none] : List (Option TerrainChunk)).getD n none =
        none := by
    intro n
    rcases n with _ | _ | _ | _ | n <;> rfl
  have hnone : chunk_manager_get_chunk_at m wx wy = none := by
    simp only [chunk_manager_get_chunk_at, h]
    split
    · exact hget _
    · rfl
  simp only [chunk_manager_check_collision, hnone]

/-- C10: an update whose position lies in the stored centre tile leaves the
active window, the centre, the pool and the RNG untouched, recording only the
player position; consequently, starting from a fresh manager (centre tile
0,0, empty window), any sequence of updates inside tile 0,0 loads no tiles,
keeps the full pool, and every collision probe anywhere reports false. -/
theorem chunk_manager_same_tile_frame :
    (∀ (m : ChunkManager) (px py : Int),
      world_to_chunk_coord px py = m.center_chunk →
      chunk_manager_update m px py =
        { m with player_world_x := px, player_world_y := py }) ∧
    (∀ ps : List (Int × Int),
      (∀ p ∈ ps, world_to_chunk_coord p.1 p.2 = world_to_chunk_coord 0 0) →
      (chunk_manager_update_seq chunk_manager_alloc ps).active_chunks =
        [none, none, none, none] ∧
      (chunk_manager_update_seq chunk_manager_alloc ps).poolFree =
        CHUNK_POOL_SIZE ∧
      ∀ wx wy : Int,
        chunk_manager_check_collision
          (chunk_manager_update_seq chunk_manager_alloc ps) wx wy = false) := by
  refine ⟨chunk_manager_update_same_center, ?_⟩
  intro ps hps
  have h := chunk_manager_update_seq_same_center ps chunk_manager_alloc hps
  refine ⟨h.1, h.2.2.1, ?_⟩
  intro wx wy
  exact chunk_manager_check_collision_empty _ h.1 wx wy

/-- Witness for C10: one same-tile update from the fresh manager, and the
demo position sequence inside tile 0,0 with a probe at 10,10. -/
theorem chunk_manager_same_tile_frame_witness :
    world_to_chunk_coord 5 7 = chunk_manager_alloc.center_chunk ∧
    chunk_manager_update chunk_manager_alloc 5 7 =
      { chunk_manager_alloc with player_world_x := 5, player_world_y := 7 } ∧
    (∀ p ∈ chunk_demo_positions,
      world_to_chunk_coord p.1 p.2 = world_to_chunk_coord 0 0) ∧
    (chunk_manager_update_seq chunk_manager_alloc
      chunk_demo_positions).active_chunks = [none, none, none, none] ∧
    (chunk_manager_update_seq chunk_manager_alloc
      chunk_demo_positions).poolFree = CHUNK_POOL_SIZE ∧
    chunk_manager_check_collision
      (chunk_manager_update_seq chunk_manager_alloc chunk_demo_positions)
      10 10 = false :=
  ⟨by decide,
   chunk_manager_same_tile_frame.1 chunk_manager_alloc 5 7 (by decide),
   by decide,
   (chunk_manager_same_tile_frame.2 chunk_demo_positions (by decide)).1,
   (chunk_manager_same_tile_frame.2 chunk_demo_positions (by decide)).2.1,
   (chunk_manager_same_tile_frame.2 chunk_demo_positions (by decide)).2.2 10 10⟩
